import Mathlib

/-
Shallow embedding of `ImportWorker`
(src/SQLiteStudio3/coreSQLiteStudio/importworker.cpp).

The worker drives one import run: `run` calls the plugin's
`beforeImport`, reads its columns, opens a transaction (unless
`skipTransaction`), reconciles the destination schema in
`prepareTable`, inserts the rows in `importData`, commits, and emits
lifecycle signals.  All interactions with the outside world (the
plugin, the database driver, the notification sinks, the
interruption flag) are modelled as an oracle environment `Env`, and
each run is embedded as the ordered list of observable events (`Ev`)
it produces.  Dialect-dependent identifier quoting
(`wrapObjIfNeeded` / `wrapObjNamesIfNeeded`, from common/utils) only
rewrites individual identifiers and never changes the number or order
of columns, so column lists are modelled by their unquoted names;
`qDebug` progress logging (every 1000 rows) is observability-only and
is not part of the event model.
-/

set_option maxHeartbeats 1600000

namespace ImportWorker

/-- A scalar value carried in an imported row.  `nullStr` models the typed
null `QVariant(QVariant::String)` that `importData` appends to pad a row
that is shorter than the reconciled column count. -/
inductive Value where
  | nullStr : Value
  | str : String → Value
  deriving DecidableEq

/-- The user-visible messages built by `ImportWorker` (the `tr(...)`
format strings), kept structured: each constructor records the dynamic
parts (`.arg(...)` arguments) of the corresponding format string. -/
inductive Msg where
  | noColumns : Msg
  | couldNotBegin : String → Msg
  | couldNotCreate : String → Msg
  | interruptedMsg : Msg
  | rowImportFailed : String → Msg
  | couldNotCommit : String → Msg
  | warnFewerColumns : Msg
  | infoMoreColumns : Msg
  | rowIgnored : Nat → String → Msg
  deriving DecidableEq

/-- Observable events of one run, in emission order: notifications
(`notifyError` / `notifyWarn` / `notifyInfo`), the Qt signals
(`finished`, `createdTable`), the plugin teardown hook (`afterImport`),
the transaction calls (`begin` / `rollback` / `commit`), the SQL
statements executed against the database (`execCreate` for the
CREATE TABLE, `execRow i a` for the INSERT of the i-th attempted row,
0-based, with bound argument list `a`), and the reads of the shared
interruption flag (`pollPrep` in `prepareTable`, `pollLoop n` at
row counter `n` in `importData`, each carrying the value read). -/
inductive Ev where
  | notifyError : Msg → Ev
  | notifyWarn : Msg → Ev
  | notifyInfo : Msg → Ev
  | finished : Bool → Ev
  | createdTable : Ev
  | afterImport : Ev
  | beginTx : Ev
  | rollbackTx : Ev
  | commitTx : Ev
  | execCreate : List (String × String) → Ev
  | execRow : Nat → List Value → Ev
  | pollPrep : Bool → Ev
  | pollLoop : Nat → Bool → Ev
  deriving DecidableEq

/-- `ImportManager::StandardImportConfig`: the two flags `run` reads. -/
structure Config where
  skipTransaction : Bool
  ignoreErrors : Bool

/-- Oracle environment for one run: the plugin's and the database
driver's answers.  `rowExecOk k` / `rowErrText k` are the result and
error text of `query->execute()` for the k-th attempted row (0-based;
the row counter `rowCnt` equals the attempt index because every loop
iteration executes exactly once).  `pollFlag k` is the value returned
by the k-th call to `isInterrupted()` (0-based; the flag is polled
once in `prepareTable` and then every 100 rows in `importData`).
`rows` is the stream produced by `plugin->next()`; the stream ends at
the first empty row or at the end of the list. -/
structure Env where
  beforeImportOk : Bool
  pluginColumns : List (String × String)
  beginOk : Bool
  tableColumns : List String
  createOk : Bool
  createErrText : String
  dbErrText : String
  rows : List (List Value)
  rowExecOk : Nat → Bool
  rowErrText : Nat → String
  commitOk : Bool
  pollFlag : Nat → Bool

/-- `ImportWorker::error(err)`: notify the error sink, call the
plugin's `afterImport()` hook, emit `finished(false)`. -/
def errorEvents (m : Msg) : List Ev :=
  [Ev.notifyError m, Ev.afterImport, Ev.finished false]

/-- `readPluginColumns()`: the name components of the plugin's column
definitions, in plugin order (`columnsFromPlugin`). -/
def columnsFromPlugin (env : Env) : List String :=
  env.pluginColumns.map Prod.fst

/-- `ImportWorker::prepareTable()`: reconcile the existing destination
columns against the plugin's columns (possibly creating the table),
then poll the interruption flag once (poll index 0).  Returns the
emitted events and, on success, the final column list together with
the `tableCreated` flag; `none` encodes `return false`. -/
def prepareTable (env : Env) : List Ev × Option (List String × Bool) :=
  if env.tableColumns.length > 0 then
    if env.tableColumns.length < (columnsFromPlugin env).length then
      if env.pollFlag 0 = true then
        ([Ev.notifyWarn Msg.warnFewerColumns, Ev.pollPrep true] ++
          errorEvents Msg.interruptedMsg, none)
      else
        ([Ev.notifyWarn Msg.warnFewerColumns, Ev.pollPrep false],
          some (env.tableColumns, false))
    else if env.tableColumns.length > (columnsFromPlugin env).length then
      if env.pollFlag 0 = true then
        ([Ev.notifyInfo Msg.infoMoreColumns, Ev.pollPrep true] ++
          errorEvents Msg.interruptedMsg, none)
      else
        ([Ev.notifyInfo Msg.infoMoreColumns, Ev.pollPrep false],
          some (env.tableColumns.take (columnsFromPlugin env).length, false))
    else
      if env.pollFlag 0 = true then
        ([Ev.pollPrep true] ++ errorEvents Msg.interruptedMsg, none)
      else
        ([Ev.pollPrep false], some (env.tableColumns, false))
  else
    if env.createOk = false then
      (Ev.execCreate env.pluginColumns ::
        errorEvents (Msg.couldNotCreate env.createErrText), none)
    else if env.pollFlag 0 = true then
      ([Ev.execCreate env.pluginColumns, Ev.pollPrep true] ++
        errorEvents Msg.interruptedMsg, none)
    else
      ([Ev.execCreate env.pluginColumns, Ev.pollPrep false],
        some (columnsFromPlugin env, true))

/-- The per-row shape fixup of `importData`: pad a short row with null
string values up to `colCount`, then bind the first `colCount` values
(`row.mid(0, colCount)`). -/
def reconcileRow (colCount : Nat) (row : List Value) : List Value :=
  (row ++ List.replicate (colCount - row.length) Value.nullStr).take colCount

/-- The warning emitted for a failed row under `ignoreErrors`: it names
the 1-based row number `rowCnt + 1` and the statement's error text. -/
def rowWarn (env : Env) (rowCnt : Nat) : List Ev :=
  if env.rowExecOk rowCnt = true then []
  else [Ev.notifyWarn (Msg.rowIgnored (rowCnt + 1) (env.rowErrText rowCnt))]

/-- The insertion loop of `ImportWorker::importData()`: while the next
row is non-empty, reconcile its shape, execute the prepared INSERT,
apply the error policy, and poll the interruption flag whenever
`rowCnt % 100 == 0` (after the execute).  `rowCnt` is the 0-based row
counter, `pollIdx` the index of the next `isInterrupted()` call.
Returns the emitted events and the boolean result of `importData`. -/
def importLoop (cfg : Config) (env : Env) (colCount : Nat) :
    List (List Value) → Nat → Nat → List Ev × Bool
  | [], _, _ => ([], true)
  | row :: rest, rowCnt, pollIdx =>
    if row.length = 0 then
      ([], true)
    else if env.rowExecOk rowCnt = false ∧ cfg.ignoreErrors = false then
      (Ev.execRow rowCnt (reconcileRow colCount row) ::
        errorEvents (Msg.rowImportFailed (env.rowErrText rowCnt)), false)
    else if rowCnt % 100 = 0 then
      if env.pollFlag pollIdx = true then
        (Ev.execRow rowCnt (reconcileRow colCount row) ::
          (rowWarn env rowCnt ++ Ev.pollLoop rowCnt true ::
            errorEvents Msg.interruptedMsg), false)
      else
        (Ev.execRow rowCnt (reconcileRow colCount row) ::
          (rowWarn env rowCnt ++ Ev.pollLoop rowCnt false ::
            (importLoop cfg env colCount rest (rowCnt + 1) (pollIdx + 1)).1),
         (importLoop cfg env colCount rest (rowCnt + 1) (pollIdx + 1)).2)
    else
      (Ev.execRow rowCnt (reconcileRow colCount row) ::
        (rowWarn env rowCnt ++
          (importLoop cfg env colCount rest (rowCnt + 1) pollIdx).1),
       (importLoop cfg env colCount rest (rowCnt + 1) pollIdx).2)

/-- The tail of the success path of `run`: `createdTable` when the table
was created in this run, then `afterImport()`, then `finished(true)`. -/
def finishTail (created : Bool) : List Ev :=
  (if created then [Ev.createdTable] else []) ++ [Ev.afterImport, Ev.finished true]

/-- The part of `ImportWorker::run()` after a successful `begin`:
`prepareTable`, `importData` (the loop starts at row counter 0 with
poll index 1, since `prepareTable` consumed poll 0), then commit and
the lifecycle tail; each failing stage rolls back when transactional. -/
def runBody (cfg : Config) (env : Env) : List Ev :=
  match prepareTable env with
  | (pevs, none) =>
    pevs ++ (if cfg.skipTransaction then [] else [Ev.rollbackTx])
  | (pevs, some (fc, created)) =>
    if (importLoop cfg env fc.length env.rows 0 1).2 = false then
      pevs ++ (importLoop cfg env fc.length env.rows 0 1).1 ++
        (if cfg.skipTransaction then [] else [Ev.rollbackTx])
    else if cfg.skipTransaction = false ∧ env.commitOk = false then
      pevs ++ (importLoop cfg env fc.length env.rows 0 1).1 ++
        (Ev.commitTx :: errorEvents (Msg.couldNotCommit env.dbErrText)) ++
        [Ev.rollbackTx]
    else
      pevs ++ (importLoop cfg env fc.length env.rows 0 1).1 ++
        (if cfg.skipTransaction then [] else [Ev.commitTx]) ++
        finishTail created

/-- `ImportWorker::run()`: the full event trace of one run. -/
def run (cfg : Config) (env : Env) : List Ev :=
  if env.beforeImportOk = false then
    [Ev.finished false]
  else if env.pluginColumns.length = 0 then
    errorEvents Msg.noColumns
  else if cfg.skipTransaction = false ∧ env.beginOk = false then
    Ev.beginTx :: errorEvents (Msg.couldNotBegin env.dbErrText)
  else
    (if cfg.skipTransaction then [] else [Ev.beginTx]) ++ runBody cfg env

/-- The `tableCreated` member after `prepareTable` (false when
`prepareTable` failed, since `run` then never reads it on a success
path). -/
def tableCreatedFlag (env : Env) : Bool :=
  match (prepareTable env).2 with
  | some (_, c) => c
  | none => false

/-- Event classifiers used to count occurrences in a trace. -/
def isExecEv : Ev → Bool
  | Ev.execRow _ _ => true
  | _ => false

def isExecCreateEv : Ev → Bool
  | Ev.execCreate _ => true
  | _ => false

def isPollLoopEv : Ev → Bool
  | Ev.pollLoop _ _ => true
  | _ => false

def isPollPrepEv : Ev → Bool
  | Ev.pollPrep _ => true
  | _ => false

def isFinishedEv : Ev → Bool
  | Ev.finished _ => true
  | _ => false

def isAfterImportEv : Ev → Bool
  | Ev.afterImport => true
  | _ => false

def isErrorEv : Ev → Bool
  | Ev.notifyError _ => true
  | _ => false

def isRowIgnoredEv : Ev → Bool
  | Ev.notifyWarn (Msg.rowIgnored _ _) => true
  | _ => false

/-- Extract the (1-based row number, error text) payload of a
row-ignored warning. -/
def warnIgnoredData : Ev → Option (Nat × String)
  | Ev.notifyWarn (Msg.rowIgnored i e) => some (i, e)
  | _ => none

/-- Number of row INSERT executions in a trace. -/
def execCount (t : List Ev) : Nat := t.countP isExecEv

/-- Number of in-loop interruption polls in a trace. -/
def pollLoopCount (t : List Ev) : Nat := t.countP isPollLoopEv

/-- Number of `finished` signals in a trace. -/
def finishedCount (t : List Ev) : Nat := t.countP isFinishedEv

/-- Number of `afterImport()` teardown calls in a trace. -/
def afterImportCount (t : List Ev) : Nat := t.countP isAfterImportEv

/-- Number of row-ignored warnings in a trace. -/
def rowIgnoredCount (t : List Ev) : Nat := t.countP isRowIgnoredEv

/-- The ordered list of (1-based row number, error text) pairs of the
row-ignored warnings in a trace. -/
def warnList (t : List Ev) : List (Nat × String) := t.filterMap warnIgnoredData

/-- Events that `importLoop` can emit. -/
def loopEv : Ev → Bool
  | Ev.execRow _ _ => true
  | Ev.notifyWarn (Msg.rowIgnored _ _) => true
  | Ev.pollLoop _ _ => true
  | Ev.notifyError (Msg.rowImportFailed _) => true
  | Ev.notifyError Msg.interruptedMsg => true
  | Ev.afterImport => true
  | Ev.finished false => true
  | _ => false

/-- Events that `prepareTable` can emit. -/
def prepEv : Ev → Bool
  | Ev.notifyWarn Msg.warnFewerColumns => true
  | Ev.notifyInfo Msg.infoMoreColumns => true
  | Ev.execCreate _ => true
  | Ev.pollPrep _ => true
  | Ev.notifyError (Msg.couldNotCreate _) => true
  | Ev.notifyError Msg.interruptedMsg => true
  | Ev.afterImport => true
  | Ev.finished false => true
  | _ => false

/-- Upper bound on the number of row executions before the next
in-loop interruption poll when the row counter currently stands at
`r`: the poll fires after the execute of the next row whose counter is
a multiple of 100. -/
def pollGap (r : Nat) : Nat :=
  if r % 100 = 0 then 1 else 101 - r % 100

/-! Concrete configurations and environments used by the witnesses. -/

/-- Transactional run, aborting on row errors. -/
def cfgTx : Config := ⟨false, false⟩

/-- Transactional run, ignoring row errors. -/
def cfgTxIgnore : Config := ⟨false, true⟩

/-- A small happy-path environment: two plugin columns, a pre-existing
three-column destination table, two one-value rows, every database
call succeeding and the interruption flag never set. -/
def baseEnv : Env where
  beforeImportOk := true
  pluginColumns := [("a", "INTEGER"), ("b", "TEXT")]
  beginOk := true
  tableColumns := ["x", "y", "z"]
  createOk := true
  createErrText := "ce"
  dbErrText := "de"
  rows := [[Value.str "r1"], [Value.str "r2"]]
  rowExecOk := fun _ => true
  rowErrText := fun _ => "ee"
  commitOk := true
  pollFlag := fun _ => false

/-- `baseEnv` with a failed plugin setup (`beforeImport` returns
false). -/
def envSetupFail : Env := { baseEnv with beforeImportOk := false }

/-- `baseEnv` with every row execution failing. -/
def envRowFail : Env := { baseEnv with rowExecOk := fun _ => false }

/-- `baseEnv` with three rows of which exactly the second fails. -/
def envOneBadRow : Env :=
  { baseEnv with
      rows := [[Value.str "r1"], [Value.str "r2"], [Value.str "r3"]]
      rowExecOk := fun k => !(k == 1) }

/-- `baseEnv` with a short row and a long row, exercising both padding
and truncation against the two reconciled columns. -/
def envShapes : Env :=
  { baseEnv with
      rows := [[Value.str "r1"],
               [Value.str "a", Value.str "b", Value.str "c"]] }

/-- `baseEnv` with an empty row between two non-empty ones. -/
def envEmptyRow : Env :=
  { baseEnv with
      rows := [[Value.str "p1"], [], [Value.str "q1"]] }

/-- `baseEnv` with cancellation requested between the reconciliation
poll (index 0) and the first in-loop poll (index 1). -/
def envCancelEarly : Env :=
  { baseEnv with pollFlag := fun p => p == 1 }

/-- `baseEnv` with no destination table, so the run creates it. -/
def envFreshTable : Env := { baseEnv with tableColumns := [] }

/-! ## Claim statements -/

/-- C1 statement: the reconciliation behaviour of `prepareTable` as a
function of the destination column list D (`env.tableColumns`) and the
source column list S (`columnsFromPlugin env`). -/
def ReconcileSpec (env : Env) : Prop :=
  (env.tableColumns = [] → env.createOk = true →
    (prepareTable env).2 = some (columnsFromPlugin env, true) ∧
    Ev.execCreate env.pluginColumns ∈ (prepareTable env).1) ∧
  (env.tableColumns ≠ [] →
    ∃ fc, (prepareTable env).2 = some (fc, false) ∧
      fc.length = min env.tableColumns.length (columnsFromPlugin env).length ∧
      (env.tableColumns.length < (columnsFromPlugin env).length →
        fc = env.tableColumns ∧
        Ev.notifyWarn Msg.warnFewerColumns ∈ (prepareTable env).1) ∧
      ((columnsFromPlugin env).length < env.tableColumns.length →
        fc = env.tableColumns.take (columnsFromPlugin env).length ∧
        Ev.notifyInfo Msg.infoMoreColumns ∈ (prepareTable env).1) ∧
      (env.tableColumns.length = (columnsFromPlugin env).length →
        fc = env.tableColumns ∧
        (∀ m, Ev.notifyWarn m ∉ (prepareTable env).1) ∧
        (∀ m, Ev.notifyInfo m ∉ (prepareTable env).1)))

/-- C2 statement: for a transactional run that got past `begin`, either
the run succeeds (commit attempted and successful, no rollback), or it
fails and rollback was invoked; moreover a failed commit produces the
"could not commit" error, a rollback and a failed outcome. -/
def AtomicitySpec (cfg : Config) (env : Env) : Prop :=
  ((Ev.finished true ∈ run cfg env ∧ Ev.commitTx ∈ run cfg env ∧
      env.commitOk = true ∧ Ev.rollbackTx ∉ run cfg env) ∨
    (Ev.finished false ∈ run cfg env ∧ Ev.rollbackTx ∈ run cfg env)) ∧
  (env.commitOk = false → Ev.commitTx ∈ run cfg env →
    Ev.notifyError (Msg.couldNotCommit env.dbErrText) ∈ run cfg env ∧
    Ev.rollbackTx ∈ run cfg env ∧ Ev.finished false ∈ run cfg env)

/-- C4 statement: with `ignoreErrors = false`, if the first failing row
is the k-th attempted row (0-based), the run fails with the
"row import failed" error carrying the statement's error text, exactly
k+1 rows were executed (none after the failing one), no success signal
is emitted, and a transactional run rolls back. -/
def AbortOnRowFailSpec (cfg : Config) (env : Env) (k : Nat) : Prop :=
  Ev.notifyError (Msg.rowImportFailed (env.rowErrText k)) ∈ run cfg env ∧
  Ev.finished false ∈ run cfg env ∧
  Ev.finished true ∉ run cfg env ∧
  execCount (run cfg env) = k + 1 ∧
  (cfg.skipTransaction = false → Ev.rollbackTx ∈ run cfg env)

/-- The expected warning payload for attempted row `i` (0-based): none
when its execution succeeds, otherwise the pair of its 1-based row
number and the statement's error text. -/
def warnAt (env : Env) (i : Nat) : Option (Nat × String) :=
  if env.rowExecOk i = true then none
  else some (i + 1, env.rowErrText i)

/-- C5 statement: with `ignoreErrors = true` and N non-empty rows, the
run succeeds, all N rows are executed, and the emitted row-ignored
warnings are exactly those of the failing rows, in order, each naming
the failing row's 1-based number and the underlying error text; no
error notification is emitted. -/
def IgnoreErrorsSpec (cfg : Config) (env : Env) : Prop :=
  Ev.finished true ∈ run cfg env ∧
  execCount (run cfg env) = env.rows.length ∧
  warnList (run cfg env) = (List.range env.rows.length).filterMap (warnAt env) ∧
  rowIgnoredCount (run cfg env) =
    ((List.range env.rows.length).filterMap (warnAt env)).length ∧
  (∀ m, Ev.notifyError m ∉ run cfg env)

/-- C6 statement: every row INSERT executed by the run binds exactly
`fc.length` values (the reconciled column count), obtained from the
corresponding source row by padding a short row with null string values
at the trailing positions and by discarding the trailing extras of a
long row. -/
def RowShapeSpec (cfg : Config) (env : Env) (fc : List String) : Prop :=
  ∀ i a, Ev.execRow i a ∈ run cfg env →
    a.length = fc.length ∧
    ∃ row, env.rows.get? i = some row ∧
      a = reconcileRow fc.length row ∧
      (row.length < fc.length →
        a = row ++ List.replicate (fc.length - row.length) Value.nullStr) ∧
      (fc.length ≤ row.length → a = row.take fc.length)

/-- C7 statement: the interruption flag is polled exactly once at the
reconciliation point, and during insertion only at row counters that
are multiples of 100; a set flag observed at the reconciliation poll
aborts the run before any row is executed, a set flag observed at an
in-loop poll aborts it right after the current row (row counter n, so
n+1 rows executed in total), both with the "interrupted" error; the
number of executed rows never exceeds 100 per in-loop poll plus the
single row executed before the first in-loop poll. -/
def PollPointsSpec (cfg : Config) (env : Env) : Prop :=
  Ev.pollPrep (env.pollFlag 0) ∈ run cfg env ∧
  (run cfg env).countP isPollPrepEv = 1 ∧
  (env.pollFlag 0 = true →
    Ev.notifyError Msg.interruptedMsg ∈ run cfg env ∧
    Ev.finished false ∈ run cfg env ∧
    execCount (run cfg env) = 0) ∧
  (∀ n b, Ev.pollLoop n b ∈ run cfg env → n % 100 = 0) ∧
  (∀ n, Ev.pollLoop n true ∈ run cfg env →
    Ev.notifyError Msg.interruptedMsg ∈ run cfg env ∧
    Ev.finished false ∈ run cfg env ∧
    execCount (run cfg env) = n + 1) ∧
  execCount (run cfg env) ≤ 100 * pollLoopCount (run cfg env) + 1

/-- C8 statement: the `createdTable` signal is emitted iff the run
reaches terminal success with the `tableCreated` flag set, and then it
appears immediately before the teardown hook and the success signal; a
run against an existing (non-empty-column) table never executes a
CREATE TABLE statement, never sets the flag, and never emits the
signal. -/
def CreatedSignalSpec (cfg : Config) (env : Env) : Prop :=
  (Ev.createdTable ∈ run cfg env ↔
    (Ev.finished true ∈ run cfg env ∧ tableCreatedFlag env = true)) ∧
  (Ev.createdTable ∈ run cfg env →
    ∃ t0, run cfg env =
      t0 ++ [Ev.createdTable, Ev.afterImport, Ev.finished true]) ∧
  (env.tableColumns ≠ [] →
    tableCreatedFlag env = false ∧
    Ev.createdTable ∉ run cfg env ∧
    (∀ cd, Ev.execCreate cd ∉ run cfg env))

/-- C9 statement: the first empty row returned by the source ends the
stream — the run's trace does not depend on anything after it, exactly
the rows before it are executed, no row warning and no error
notification is recorded, and the run finishes successfully; in
particular the empty row itself is never inserted. -/
def EmptyRowSpec (cfg : Config) (env : Env) (pre : List (List Value)) : Prop :=
  (∀ post2, run cfg { env with rows := pre ++ [] :: post2 } = run cfg env) ∧
  execCount (run cfg env) = pre.length ∧
  Ev.finished true ∈ run cfg env ∧
  rowIgnoredCount (run cfg env) = 0 ∧
  (∀ m, Ev.notifyError m ∉ run cfg env)

/-- C10 statement: every in-loop poll happens at a row counter that is
a multiple of 100 and only together with the execution of the row with
that counter; with cancellation requested between the reconciliation
poll (index 0, clear) and the first in-loop poll (index 1, set),
exactly one row is executed before the run aborts as interrupted. -/
def EarlyCancelSpec (cfg : Config) (env : Env) : Prop :=
  (∀ n b, Ev.pollLoop n b ∈ run cfg env →
    n % 100 = 0 ∧ ∃ a, Ev.execRow n a ∈ run cfg env) ∧
  execCount (run cfg env) = 1 ∧
  Ev.notifyError Msg.interruptedMsg ∈ run cfg env ∧
  Ev.finished false ∈ run cfg env ∧
  Ev.finished true ∉ run cfg env

/-! ## Helper lemmas -/

theorem rowWarn_cases (env : Env) (r : Nat) :
    rowWarn env r = [] ∨
      rowWarn env r = [Ev.notifyWarn (Msg.rowIgnored (r + 1) (env.rowErrText r))] := by
  unfold rowWarn
  split_ifs <;> simp

theorem loop_all_loopEv (cfg : Config) (env : Env) (c : Nat) :
    ∀ (rows : List (List Value)) (r p : Nat),
      (importLoop cfg env c rows r p).1.all loopEv = true := by
  intro rows
  induction rows with
  | nil =>
    intro r p
    simp [importLoop]
  | cons row rest ih =>
    intro r p
    rcases rowWarn_cases env r with hw | hw <;>
    · simp only [importLoop]
      split_ifs <;>
        simp [hw, errorEvents, loopEv, List.all_append, List.all_cons,
          ih (r + 1) (p + 1), ih (r + 1) p]

theorem loop_mem_loopEv (cfg : Config) (env : Env) (c : Nat)
    (rows : List (List Value)) (r p : Nat) (e : Ev)
    (h : e ∈ (importLoop cfg env c rows r p).1) : loopEv e = true :=
  (List.all_eq_true.1 (loop_all_loopEv cfg env c rows r p)) e h

theorem loop_counts (cfg : Config) (env : Env) (c : Nat) :
    ∀ (rows : List (List Value)) (r p : Nat),
      finishedCount (importLoop cfg env c rows r p).1 =
        (if (importLoop cfg env c rows r p).2 = true then 0 else 1) ∧
      afterImportCount (importLoop cfg env c rows r p).1 =
        (if (importLoop cfg env c rows r p).2 = true then 0 else 1) := by
  intro rows
  induction rows with
  | nil =>
    intro r p
    simp [importLoop, finishedCount, afterImportCount]
  | cons row rest ih =>
    intro r p
    have ih1 := ih (r + 1) (p + 1)
    have ih2 := ih (r + 1) p
    unfold finishedCount afterImportCount at ih1 ih2 ⊢
    rcases rowWarn_cases env r with hw | hw <;>
    · simp only [importLoop]
      split_ifs <;>
        simp_all [hw, errorEvents, List.countP_cons, List.countP_append,
          isFinishedEv, isAfterImportEv]

theorem loop_fail_finished (cfg : Config) (env : Env) (c : Nat)
    (rows : List (List Value)) (r p : Nat)
    (h : (importLoop cfg env c rows r p).2 = false) :
    Ev.finished false ∈ (importLoop cfg env c rows r p).1 := by
  have hc := (loop_counts cfg env c rows r p).1
  rw [h] at hc
  simp only [Bool.false_eq_true, if_false] at hc
  have hpos : 0 < (importLoop cfg env c rows r p).1.countP isFinishedEv := by
    unfold finishedCount at hc
    omega
  rcases List.countP_pos_iff.1 hpos with ⟨e, hmem, he⟩
  have hl := loop_mem_loopEv cfg env c rows r p e hmem
  cases e <;> simp [isFinishedEv] at he
  case finished b =>
    cases b
    · exact hmem
    · simp [loopEv] at hl

theorem prep_all_prepEv (env : Env) :
    (prepareTable env).1.all prepEv = true := by
  unfold prepareTable
  split_ifs <;>
    simp [errorEvents, prepEv, List.all_append, List.all_cons]

theorem prep_mem_prepEv (env : Env) (e : Ev)
    (h : e ∈ (prepareTable env).1) : prepEv e = true :=
  (List.all_eq_true.1 (prep_all_prepEv env)) e h

theorem prep_counts (env : Env) :
    finishedCount (prepareTable env).1 =
      (if (prepareTable env).2.isSome then 0 else 1) ∧
    afterImportCount (prepareTable env).1 =
      (if (prepareTable env).2.isSome then 0 else 1) := by
  unfold prepareTable
  split_ifs <;>
    simp_all [errorEvents, finishedCount, afterImportCount,
      List.countP_cons, List.countP_append, isFinishedEv, isAfterImportEv]

theorem prep_fail_finished (env : Env)
    (h : (prepareTable env).2 = none) :
    Ev.finished false ∈ (prepareTable env).1 := by
  have hc := (prep_counts env).1
  rw [h] at hc
  simp only [Option.isSome_none, Bool.false_eq_true, if_false] at hc
  have hpos : 0 < (prepareTable env).1.countP isFinishedEv := by
    unfold finishedCount at hc
    omega
  rcases List.countP_pos_iff.1 hpos with ⟨e, hmem, he⟩
  have hl := prep_mem_prepEv env e hmem
  cases e <;> simp [isFinishedEv] at he
  case finished b =>
    cases b
    · exact hmem
    · simp [prepEv] at hl

theorem finishTail_counts (created : Bool) :
    finishedCount (finishTail created) = 1 ∧
    afterImportCount (finishTail created) = 1 := by
  cases created <;>
    simp [finishTail, finishedCount, afterImportCount,
      List.countP_cons, isFinishedEv, isAfterImportEv]

theorem finishedCount_append (a b : List Ev) :
    finishedCount (a ++ b) = finishedCount a + finishedCount b :=
  List.countP_append ..

theorem afterImportCount_append (a b : List Ev) :
    afterImportCount (a ++ b) = afterImportCount a + afterImportCount b :=
  List.countP_append ..

theorem execCount_append (a b : List Ev) :
    execCount (a ++ b) = execCount a + execCount b :=
  List.countP_append ..

theorem pollLoopCount_append (a b : List Ev) :
    pollLoopCount (a ++ b) = pollLoopCount a + pollLoopCount b :=
  List.countP_append ..

theorem rowIgnoredCount_append (a b : List Ev) :
    rowIgnoredCount (a ++ b) = rowIgnoredCount a + rowIgnoredCount b :=
  List.countP_append ..

theorem warnList_append (a b : List Ev) :
    warnList (a ++ b) = warnList a ++ warnList b :=
  List.filterMap_append ..

theorem run_eq_body (cfg : Config) (env : Env)
    (hb : env.beforeImportOk = true)
    (hc : env.pluginColumns.length ≠ 0)
    (hbg : cfg.skipTransaction = true ∨ env.beginOk = true) :
    run cfg env =
      (if cfg.skipTransaction then [] else [Ev.beginTx]) ++ runBody cfg env := by
  unfold run
  rcases hbg with h | h <;> simp [hb, hc, h]

theorem runBody_counts (cfg : Config) (env : Env) :
    finishedCount (runBody cfg env) = 1 ∧
    afterImportCount (runBody cfg env) = 1 := by
  unfold runBody
  rcases hp : prepareTable env with ⟨pevs, fcOpt⟩
  have hpc := prep_counts env
  rw [hp] at hpc
  unfold finishedCount afterImportCount at hpc ⊢
  rcases fcOpt with _ | ⟨fc, created⟩
  · simp only [Option.isSome_none, Bool.false_eq_true, if_false] at hpc
    cases hs : cfg.skipTransaction <;>
      simp [hs, hpc.1, hpc.2, List.countP_append, List.countP_cons,
        isFinishedEv, isAfterImportEv]
  · simp only [Option.isSome_some, if_true] at hpc
    have hlc := loop_counts cfg env fc.length env.rows 0 1
    unfold finishedCount afterImportCount at hlc
    dsimp only
    cases hres : (importLoop cfg env fc.length env.rows 0 1).2
    · rw [hres] at hlc
      simp only [Bool.false_eq_true, if_false] at hlc
      cases hs : cfg.skipTransaction <;>
        simp [hs, hpc.1, hpc.2, hlc.1, hlc.2, List.countP_append,
          List.countP_cons, isFinishedEv, isAfterImportEv]
    · rw [hres] at hlc
      simp only [if_true] at hlc
      have hft := finishTail_counts created
      unfold finishedCount afterImportCount at hft
      cases hs : cfg.skipTransaction <;> cases hcm : env.commitOk <;>
        simp [hs, hcm, hpc.1, hpc.2, hlc.1, hlc.2, hft.1, hft.2, errorEvents,
          List.countP_append, List.countP_cons, isFinishedEv, isAfterImportEv]

/-- C3: counterexample.  When the plugin's `beforeImport` (setup) hook
returns false, `run` emits `finished(false)` but never invokes the
plugin's `afterImport` (teardown) hook — the claim's "teardown invoked
exactly once on every outcome path, in particular also when setup
returns false" fails on this input. -/
theorem setup_failure_skips_teardown :
    Ev.finished false ∈ run cfgTx envSetupFail ∧
    afterImportCount (run cfgTx envSetupFail) = 0 ∧
    finishedCount (run cfgTx envSetupFail) = 1 := by
  refine ⟨?_, ?_, ?_⟩ <;> decide

theorem prep_not_mem (env : Env) :
    Ev.rollbackTx ∉ (prepareTable env).1 ∧
    Ev.commitTx ∉ (prepareTable env).1 ∧
    Ev.beginTx ∉ (prepareTable env).1 ∧
    Ev.finished true ∉ (prepareTable env).1 ∧
    Ev.createdTable ∉ (prepareTable env).1 ∧
    (∀ i a, Ev.execRow i a ∉ (prepareTable env).1) ∧
    (∀ n b, Ev.pollLoop n b ∉ (prepareTable env).1) := by
  refine ⟨fun h => ?_, fun h => ?_, fun h => ?_, fun h => ?_, fun h => ?_,
    fun i a h => ?_, fun n b h => ?_⟩ <;>
  · have hh := prep_mem_prepEv env _ h
    simp [prepEv] at hh

theorem loop_not_mem (cfg : Config) (env : Env) (c : Nat)
    (rows : List (List Value)) (r p : Nat) :
    Ev.rollbackTx ∉ (importLoop cfg env c rows r p).1 ∧
    Ev.commitTx ∉ (importLoop cfg env c rows r p).1 ∧
    Ev.beginTx ∉ (importLoop cfg env c rows r p).1 ∧
    Ev.finished true ∉ (importLoop cfg env c rows r p).1 ∧
    Ev.createdTable ∉ (importLoop cfg env c rows r p).1 ∧
    (∀ b, Ev.pollPrep b ∉ (importLoop cfg env c rows r p).1) ∧
    (∀ cd, Ev.execCreate cd ∉ (importLoop cfg env c rows r p).1) := by
  refine ⟨fun h => ?_, fun h => ?_, fun h => ?_, fun h => ?_, fun h => ?_,
    fun b h => ?_, fun cd h => ?_⟩ <;>
  · have hh := loop_mem_loopEv cfg env c rows r p _ h
    simp [loopEv] at hh

theorem finishTail_not_mem (created : Bool) :
    Ev.rollbackTx ∉ finishTail created ∧
    Ev.commitTx ∉ finishTail created ∧
    Ev.finished false ∉ finishTail created ∧
    (∀ i a, Ev.execRow i a ∉ finishTail created) ∧
    (∀ n b, Ev.pollLoop n b ∉ finishTail created) ∧
    (∀ b, Ev.pollPrep b ∉ finishTail created) := by
  cases created <;> simp [finishTail]

theorem finishTail_mem_finished (created : Bool) :
    Ev.finished true ∈ finishTail created := by
  cases created <;> simp [finishTail]

theorem run_eq_stages (cfg : Config) (env : Env) (pevs : List Ev)
    (fc : List String) (created : Bool)
    (hb : env.beforeImportOk = true)
    (hc : env.pluginColumns.length ≠ 0)
    (hbg : cfg.skipTransaction = true ∨ env.beginOk = true)
    (hp : prepareTable env = (pevs, some (fc, created))) :
    run cfg env =
      (if cfg.skipTransaction then [] else [Ev.beginTx]) ++
      (if (importLoop cfg env fc.length env.rows 0 1).2 = false then
        pevs ++ (importLoop cfg env fc.length env.rows 0 1).1 ++
          (if cfg.skipTransaction then [] else [Ev.rollbackTx])
      else if cfg.skipTransaction = false ∧ env.commitOk = false then
        pevs ++ (importLoop cfg env fc.length env.rows 0 1).1 ++
          (Ev.commitTx :: errorEvents (Msg.couldNotCommit env.dbErrText)) ++
          [Ev.rollbackTx]
      else
        pevs ++ (importLoop cfg env fc.length env.rows 0 1).1 ++
          (if cfg.skipTransaction then [] else [Ev.commitTx]) ++
          finishTail created) := by
  rw [run_eq_body cfg env hb hc hbg]
  unfold runBody
  rw [hp]

theorem prep_exec_zero (env : Env) :
    execCount (prepareTable env).1 = 0 ∧
    pollLoopCount (prepareTable env).1 = 0 := by
  unfold execCount pollLoopCount
  rw [List.countP_eq_zero, List.countP_eq_zero]
  constructor <;>
  · intro e he
    have hh := prep_mem_prepEv env e he
    cases e <;> simp [isExecEv, isPollLoopEv, prepEv] at hh ⊢

theorem finishTail_zero (created : Bool) :
    execCount (finishTail created) = 0 ∧
    pollLoopCount (finishTail created) = 0 ∧
    rowIgnoredCount (finishTail created) = 0 ∧
    warnList (finishTail created) = [] := by
  cases created <;>
    simp [finishTail, execCount, pollLoopCount, rowIgnoredCount, warnList,
      List.countP_cons, isExecEv, isPollLoopEv, isRowIgnoredEv, warnIgnoredData]

theorem loop_first_fail (cfg : Config) (env : Env) (c : Nat) :
    ∀ (k : Nat) (rows : List (List Value)) (r p : Nat),
      cfg.ignoreErrors = false →
      (∀ q, env.pollFlag q = false) →
      (∀ j, j ≤ k → ∃ row, rows.get? j = some row ∧ row ≠ []) →
      (∀ j, j < k → env.rowExecOk (r + j) = true) →
      env.rowExecOk (r + k) = false →
      (importLoop cfg env c rows r p).2 = false ∧
      execCount (importLoop cfg env c rows r p).1 = k + 1 ∧
      Ev.notifyError (Msg.rowImportFailed (env.rowErrText (r + k)))
        ∈ (importLoop cfg env c rows r p).1 ∧
      Ev.finished false ∈ (importLoop cfg env c rows r p).1 := by
  intro k
  induction k with
  | zero =>
    intro rows r p hig hpoll hrows hok hfail
    rcases hrows 0 (le_refl 0) with ⟨row, hget, hne⟩
    rcases rows with _ | ⟨row0, rest⟩
    · simp at hget
    · have hr0 : row0 = row := by simpa using hget
      subst hr0
      have h0 : ¬ row0.length = 0 := by
        simpa [List.length_eq_zero] using hne
      have hfail' : env.rowExecOk r = false := by simpa using hfail
      simp [importLoop, h0, hfail', hig, errorEvents, execCount,
        List.countP_cons, isExecEv]
  | succ k ih =>
    intro rows r p hig hpoll hrows hok hfail
    rcases hrows 0 (Nat.zero_le _) with ⟨row, hget, hne⟩
    rcases rows with _ | ⟨row0, rest⟩
    · simp at hget
    · have hr0 : row0 = row := by simpa using hget
      subst hr0
      have h0 : ¬ row0.length = 0 := by
        simpa [List.length_eq_zero] using hne
      have hok0 : env.rowExecOk r = true := by
        simpa using hok 0 (Nat.succ_pos k)
      have hw : rowWarn env r = [] := by simp [rowWarn, hok0]
      have hrows' : ∀ j, j ≤ k → ∃ rw, rest.get? j = some rw ∧ rw ≠ [] := by
        intro j hj
        have := hrows (j + 1) (Nat.succ_le_succ hj)
        simpa using this
      have hok' : ∀ j, j < k → env.rowExecOk (r + 1 + j) = true := by
        intro j hj
        have := hok (j + 1) (Nat.succ_lt_succ hj)
        have harith : r + (j + 1) = r + 1 + j := by omega
        rwa [harith] at this
      have hfail' : env.rowExecOk (r + 1 + k) = false := by
        have harith : r + (k + 1) = r + 1 + k := by omega
        rwa [harith] at hfail
      have harith2 : r + (k + 1) = r + 1 + k := by omega
      by_cases hr : r % 100 = 0
      · have ihres := ih rest (r + 1) (p + 1) hig hpoll hrows' hok' hfail'
        simp [importLoop, h0, hok0, hr, hpoll p, hw, execCount,
          List.countP_cons, List.countP_append, isExecEv, harith2,
          ihres.1, ihres.2.2.1, ihres.2.2.2]
        have := ihres.2.1
        unfold execCount at this
        omega
      · have ihres := ih rest (r + 1) p hig hpoll hrows' hok' hfail'
        simp [importLoop, h0, hok0, hr, hw, execCount,
          List.countP_cons, List.countP_append, isExecEv, harith2,
          ihres.1, ihres.2.2.1, ihres.2.2.2]
        have := ihres.2.1
        unfold execCount at this
        omega

/-- C1: schema reconciliation.  If the destination column list D is
empty, the table is created with exactly the source's columns in source
order and `tableCreated` is set; if the table pre-exists, the effective
column list has length `min |D| |S|`: the full destination list plus a
warning when `|D| < |S|`, the first `|S|` destination columns plus an
informational notice when `|D| > |S|`, and the destination list
unchanged with no notice when `|D| = |S|`. -/
theorem prepare_reconciliation (env : Env)
    (_hS : env.pluginColumns ≠ [])
    (hpoll : env.pollFlag 0 = false) :
    ReconcileSpec env := by
  constructor
  · intro hD hcr
    unfold prepareTable
    simp [hD, hcr, hpoll]
  · intro hD
    have hD' : env.tableColumns.length > 0 := List.length_pos.2 hD
    rcases Nat.lt_trichotomy env.tableColumns.length
        (columnsFromPlugin env).length with hlt | heq | hgt
    · refine ⟨env.tableColumns, ?_, by omega, fun h => ?_,
        fun h => absurd h (by omega), fun h => absurd h (by omega)⟩
      · unfold prepareTable
        simp [hD', hlt, hpoll]
      · refine ⟨rfl, ?_⟩
        unfold prepareTable
        simp [hD', hlt, hpoll]
    · have h1 : ¬ env.tableColumns.length < (columnsFromPlugin env).length := by
        omega
      have h2 : ¬ env.tableColumns.length > (columnsFromPlugin env).length := by
        omega
      refine ⟨env.tableColumns, ?_, by omega,
        fun h => absurd h (by omega), fun h => absurd h (by omega),
        fun h => ⟨rfl, ?_, ?_⟩⟩
      · unfold prepareTable
        simp [hD', h1, h2, hpoll]
      · intro m hm
        unfold prepareTable at hm
        simp [hD', h1, h2, hpoll] at hm
      · intro m hm
        unfold prepareTable at hm
        simp [hD', h1, h2, hpoll] at hm
    · have h1 : ¬ env.tableColumns.length < (columnsFromPlugin env).length := by
        omega
      refine ⟨env.tableColumns.take (columnsFromPlugin env).length, ?_,
        by simp [List.length_take]; omega,
        fun h => absurd h (by omega), fun h => ?_,
        fun h => absurd h (by omega)⟩
      · unfold prepareTable
        simp [hD', h1, hgt, hpoll]
      · refine ⟨rfl, ?_⟩
        unfold prepareTable
        simp [hD', h1, hgt, hpoll]

/-- C1 witness: `baseEnv` has a pre-existing three-column destination
and two source columns, exercising the `|D| > |S|` branch. -/
theorem prepare_reconciliation_witness :
    baseEnv.pluginColumns ≠ [] ∧ baseEnv.pollFlag 0 = false ∧
    ReconcileSpec baseEnv :=
  ⟨by decide, rfl, prepare_reconciliation baseEnv (by decide) rfl⟩

/-- C2: transactional atomicity.  For a transactional run
(`skipTransaction = false`) that passed `begin`, either the run reaches
the successful commit (and no rollback happens), or it fails and
rollback is invoked; a failed commit yields the "could not commit"
error, a rollback and a failed outcome. -/
theorem run_transactional_atomicity (cfg : Config) (env : Env)
    (hskip : cfg.skipTransaction = false)
    (hb : env.beforeImportOk = true)
    (hcols : env.pluginColumns ≠ [])
    (hbegin : env.beginOk = true) :
    AtomicitySpec cfg env := by
  have hc0 : env.pluginColumns.length ≠ 0 := by
    simpa [List.length_eq_zero] using hcols
  have hrun := run_eq_body cfg env hb hc0 (Or.inr hbegin)
  rw [hskip] at hrun
  simp only [Bool.false_eq_true, if_false] at hrun
  unfold AtomicitySpec
  rw [hrun]
  unfold runBody
  rw [hskip]
  rcases hp : prepareTable env with ⟨pevs, fcOpt⟩
  have hpn := prep_not_mem env
  rw [hp] at hpn
  dsimp only at hpn
  rcases fcOpt with _ | ⟨fc, created⟩
  · -- prepareTable failed: rollback, failure
    have hpf : Ev.finished false ∈ pevs := by
      have h0 := prep_fail_finished env (by rw [hp])
      rwa [hp] at h0
    dsimp only
    simp only [Bool.false_eq_true, if_false]
    refine ⟨Or.inr ⟨by simp [hpf], by simp⟩, fun _ hmem => ?_⟩
    exact absurd hmem (by simp [hpn.2.1])
  · dsimp only
    have hln := loop_not_mem cfg env fc.length env.rows 0 1
    cases hres : (importLoop cfg env fc.length env.rows 0 1).2
    · -- importData failed: rollback, failure
      have hlf := loop_fail_finished cfg env fc.length env.rows 0 1 hres
      simp only [Bool.false_eq_true, if_false, if_true]
      refine ⟨Or.inr ⟨by simp [hlf], by simp⟩, fun _ hmem => ?_⟩
      exact absurd hmem (by simp [hpn.2.1, hln.2.1])
    · cases hcm : env.commitOk
      · -- commit failed
        simp only [Bool.true_eq_false, Bool.false_eq_true, if_false,
          and_self, if_true, errorEvents]
        exact ⟨Or.inr ⟨by simp, by simp⟩,
          fun _ _ => ⟨by simp, by simp, by simp⟩⟩
      · -- success
        simp only [Bool.true_eq_false, Bool.false_eq_true, and_false,
          and_self, if_false, if_true]
        have hft := finishTail_not_mem created
        refine ⟨Or.inl ⟨by simp [finishTail_mem_finished], by simp, trivial,
          fun hmem => absurd hmem (by simp [hpn.1, hln.1, hft.1])⟩,
          fun hcm' _ => absurd hcm' (by simp)⟩

/-- C2 witness: the happy-path transactional run on `baseEnv`. -/
theorem run_transactional_atomicity_witness :
    cfgTx.skipTransaction = false ∧ baseEnv.beforeImportOk = true ∧
    baseEnv.pluginColumns ≠ [] ∧ baseEnv.beginOk = true ∧
    AtomicitySpec cfgTx baseEnv :=
  ⟨rfl, rfl, by decide, rfl,
    run_transactional_atomicity cfgTx baseEnv rfl rfl (by decide) rfl⟩

theorem rowIgnored_eq_warn_length :
    ∀ t : List Ev, rowIgnoredCount t = (warnList t).length := by
  intro t
  induction t with
  | nil => simp [rowIgnoredCount, warnList]
  | cons e t ih =>
    unfold rowIgnoredCount warnList at ih ⊢
    cases e <;> try simp [List.countP_cons, isRowIgnoredEv, warnIgnoredData, ih]
    case notifyWarn m =>
      cases m <;>
        simp [List.countP_cons, isRowIgnoredEv, warnIgnoredData, ih]

theorem range_filterMap_succ {α : Type} (n : Nat) (f : Nat → Option α) :
    (List.range (n + 1)).filterMap f =
      (f 0).toList ++ (List.range n).filterMap (fun j => f (j + 1)) := by
  rw [List.range_succ_eq_map, List.filterMap_cons]
  have hc : List.filterMap f (List.map Nat.succ (List.range n)) =
      (List.range n).filterMap (fun j => f (j + 1)) := by
    rw [List.filterMap_map]
    rfl
  cases h : f 0 <;> simp [h, hc]

theorem prep_success_no_error (env : Env) (x : List String × Bool)
    (h : (prepareTable env).2 = some x) :
    ∀ m, Ev.notifyError m ∉ (prepareTable env).1 := by
  intro m hm
  unfold prepareTable at h hm
  split_ifs at h hm <;> simp_all [errorEvents]

theorem prep_warn_nil (env : Env) :
    warnList (prepareTable env).1 = [] := by
  unfold warnList
  rw [List.filterMap_eq_nil_iff]
  intro e he
  have hh := prep_mem_prepEv env e he
  cases e <;> try simp [warnIgnoredData]
  case notifyWarn m =>
    cases m <;> simp_all [warnIgnoredData, prepEv]

theorem loop_complete (cfg : Config) (env : Env) (c : Nat) :
    ∀ (rows : List (List Value)) (r p : Nat),
      (∀ row ∈ rows, row ≠ []) →
      (∀ q, env.pollFlag q = false) →
      (∀ j, j < rows.length →
        cfg.ignoreErrors = true ∨ env.rowExecOk (r + j) = true) →
      (importLoop cfg env c rows r p).2 = true ∧
      execCount (importLoop cfg env c rows r p).1 = rows.length ∧
      warnList (importLoop cfg env c rows r p).1 =
        (List.range rows.length).filterMap (fun j => warnAt env (r + j)) ∧
      (∀ m, Ev.notifyError m ∉ (importLoop cfg env c rows r p).1) := by
  intro rows
  induction rows with
  | nil =>
    intro r p _ _ _
    simp [importLoop, execCount, warnList]
  | cons row rest ih =>
    intro r p hne hpoll hok
    have h0 : ¬ row.length = 0 := by
      simpa [List.length_eq_zero] using hne row (List.mem_cons_self row rest)
    have hnabort : ¬ (env.rowExecOk r = false ∧ cfg.ignoreErrors = false) := by
      rcases hok 0 (by simp) with h | h
      · rintro ⟨_, h2⟩
        rw [h] at h2
        exact Bool.noConfusion h2
      · rintro ⟨h1, _⟩
        simp only [Nat.add_zero] at h
        rw [h] at h1
        exact Bool.noConfusion h1
    have hne' : ∀ rw ∈ rest, rw ≠ [] :=
      fun rw hrw => hne rw (List.mem_cons_of_mem row hrw)
    have hok' : ∀ j, j < rest.length →
        cfg.ignoreErrors = true ∨ env.rowExecOk (r + 1 + j) = true := by
      intro j hj
      have := hok (j + 1) (by simpa using Nat.succ_lt_succ hj)
      rwa [show r + (j + 1) = r + 1 + j by omega] at this
    have htail : (List.range rest.length).filterMap
        (fun j => warnAt env (r + (j + 1))) =
        (List.range rest.length).filterMap (fun j => warnAt env (r + 1 + j)) := by
      congr 1
      funext j
      congr 1
      omega
    have hshift : (List.range (row :: rest).length).filterMap
        (fun j => warnAt env (r + j)) =
        (warnAt env r).toList ++
          (List.range rest.length).filterMap (fun j => warnAt env (r + 1 + j)) := by
      rw [List.length_cons, range_filterMap_succ]
      simp only [Nat.add_zero, htail]
    have hwl : List.filterMap warnIgnoredData (rowWarn env r) =
        (warnAt env r).toList := by
      unfold rowWarn warnAt
      split_ifs <;> simp [warnIgnoredData]
    have hwx : List.countP isExecEv (rowWarn env r) = 0 := by
      rcases rowWarn_cases env r with hw | hw <;> simp [hw, isExecEv]
    have hwe : ∀ m, Ev.notifyError m ∉ rowWarn env r := by
      intro m hm
      rcases rowWarn_cases env r with hw | hw <;> simp [hw] at hm
    by_cases hr : r % 100 = 0
    · have ihres := ih (r + 1) (p + 1) hne' hpoll hok'
      have hstep : importLoop cfg env c (row :: rest) r p =
          (Ev.execRow r (reconcileRow c row) ::
            (rowWarn env r ++ Ev.pollLoop r false ::
              (importLoop cfg env c rest (r + 1) (p + 1)).1),
           (importLoop cfg env c rest (r + 1) (p + 1)).2) := by
        simp [importLoop, h0, hnabort, hr, hpoll p]
      rw [hstep]
      refine ⟨by simpa using ihres.1, ?_, ?_, ?_⟩
      · have h1 := ihres.2.1
        unfold execCount at h1 ⊢
        simp [List.countP_cons, List.countP_append, isExecEv, hwx, h1]
      · have h3 := ihres.2.2.1
        unfold warnList at h3 ⊢
        rw [hshift]
        simp [List.filterMap_cons, List.filterMap_append, warnIgnoredData,
          hwl, h3]
      · intro m
        have h4 := ihres.2.2.2 m
        have h5 := hwe m
        simp only [List.mem_cons, List.mem_append]
        push_neg
        refine ⟨by simp, h5, by simp, h4⟩
    · have ihres := ih (r + 1) p hne' hpoll hok'
      have hstep : importLoop cfg env c (row :: rest) r p =
          (Ev.execRow r (reconcileRow c row) ::
            (rowWarn env r ++ (importLoop cfg env c rest (r + 1) p).1),
           (importLoop cfg env c rest (r + 1) p).2) := by
        simp [importLoop, h0, hnabort, hr]
      rw [hstep]
      refine ⟨by simpa using ihres.1, ?_, ?_, ?_⟩
      · have h1 := ihres.2.1
        unfold execCount at h1 ⊢
        simp [List.countP_cons, List.countP_append, isExecEv, hwx, h1]
      · have h3 := ihres.2.2.1
        unfold warnList at h3 ⊢
        rw [hshift]
        simp [List.filterMap_cons, List.filterMap_append, warnIgnoredData,
          hwl, h3]
      · intro m
        have h4 := ihres.2.2.2 m
        have h5 := hwe m
        simp only [List.mem_cons, List.mem_append]
        push_neg
        refine ⟨by simp, h5, h4⟩

theorem reconcileRow_length (c : Nat) (row : List Value) :
    (reconcileRow c row).length = c := by
  unfold reconcileRow
  simp only [List.length_take, List.length_append, List.length_replicate]
  omega

theorem reconcileRow_pad (c : Nat) (row : List Value)
    (h : row.length < c) :
    reconcileRow c row =
      row ++ List.replicate (c - row.length) Value.nullStr := by
  unfold reconcileRow
  apply List.take_of_length_le
  simp only [List.length_append, List.length_replicate]
  omega

theorem reconcileRow_trunc (c : Nat) (row : List Value)
    (h : c ≤ row.length) :
    reconcileRow c row = row.take c := by
  unfold reconcileRow
  have hz : c - row.length = 0 := by omega
  rw [hz]
  simp

theorem loop_exec_args (cfg : Config) (env : Env) (c : Nat) :
    ∀ (rows : List (List Value)) (r p : Nat) (i : Nat) (a : List Value),
      Ev.execRow i a ∈ (importLoop cfg env c rows r p).1 →
      r ≤ i ∧ ∃ row, rows.get? (i - r) = some row ∧
        a = reconcileRow c row := by
  intro rows
  induction rows with
  | nil =>
    intro r p i a h
    simp [importLoop] at h
  | cons row rest ih =>
    intro r p i a h
    by_cases h0 : row.length = 0
    · simp [importLoop, h0] at h
    · have hhead : Ev.execRow i a = Ev.execRow r (reconcileRow c row) →
          r ≤ i ∧ ∃ rw, (row :: rest).get? (i - r) = some rw ∧
            a = reconcileRow c rw := by
        intro he
        have hi : i = r := by
          injection he with h1 h2
        have ha : a = reconcileRow c row := by
          injection he with h1 h2
        subst hi
        exact ⟨le_refl i, row, by simp, ha⟩
      have htail : ∀ p', Ev.execRow i a ∈ (importLoop cfg env c rest (r + 1) p').1 →
          r ≤ i ∧ ∃ rw, (row :: rest).get? (i - r) = some rw ∧
            a = reconcileRow c rw := by
        intro p' hm
        rcases ih (r + 1) p' i a hm with ⟨hle, rw, hget, ha⟩
        refine ⟨by omega, rw, ?_, ha⟩
        rw [show i - r = (i - (r + 1)) + 1 by omega]
        simpa using hget
      have hwarn : Ev.execRow i a ∉ rowWarn env r := by
        intro hm
        rcases rowWarn_cases env r with hw | hw <;> simp [hw] at hm
      by_cases habort : env.rowExecOk r = false ∧ cfg.ignoreErrors = false
      · simp only [importLoop, if_neg h0, if_pos habort, errorEvents,
          List.mem_cons, List.not_mem_nil] at h
        rcases h with h | h | h | h | h
        · exact hhead h
        all_goals simp at h
      · by_cases hr : r % 100 = 0
        · by_cases hpf : env.pollFlag p = true
          · simp only [importLoop, if_neg h0, if_neg habort, if_pos hr,
              if_pos hpf, errorEvents, List.mem_cons, List.mem_append,
              List.not_mem_nil] at h
            rcases h with h | h | h
            · exact hhead h
            · exact absurd h hwarn
            · rcases h with h | h | h | h
              all_goals simp at h
          · simp only [importLoop, if_neg h0, if_neg habort, if_pos hr,
              if_neg hpf, List.mem_cons, List.mem_append] at h
            rcases h with h | h | h
            · exact hhead h
            · exact absurd h hwarn
            · rcases h with h | h
              · simp at h
              · exact htail (p + 1) h
        · simp only [importLoop, if_neg h0, if_neg habort, if_neg hr,
            List.mem_cons, List.mem_append] at h
          rcases h with h | h | h
          · exact hhead h
          · exact absurd h hwarn
          · exact htail p h

theorem run_exec_mem (cfg : Config) (env : Env)
    (pevs : List Ev) (fc : List String) (created : Bool)
    (hb : env.beforeImportOk = true)
    (hc : env.pluginColumns.length ≠ 0)
    (hbg : cfg.skipTransaction = true ∨ env.beginOk = true)
    (hp : prepareTable env = (pevs, some (fc, created)))
    (i : Nat) (a : List Value)
    (h : Ev.execRow i a ∈ run cfg env) :
    Ev.execRow i a ∈ (importLoop cfg env fc.length env.rows 0 1).1 := by
  rw [run_eq_stages cfg env pevs fc created hb hc hbg hp] at h
  have hpn := prep_not_mem env
  rw [hp] at hpn
  dsimp only at hpn
  have hfn := (finishTail_not_mem created).2.2.2.1 i a
  rcases List.mem_append.1 h with h | h
  · split at h <;> simp at h
  · split at h
    · rcases List.mem_append.1 h with h | h
      · rcases List.mem_append.1 h with h | h
        · exact absurd h (hpn.2.2.2.2.2.1 i a)
        · exact h
      · split at h <;> simp at h
    · split at h
      · rcases List.mem_append.1 h with h | h
        · rcases List.mem_append.1 h with h | h
          · rcases List.mem_append.1 h with h | h
            · exact absurd h (hpn.2.2.2.2.2.1 i a)
            · exact h
          · simp [errorEvents] at h
        · simp at h
      · rcases List.mem_append.1 h with h | h
        · rcases List.mem_append.1 h with h | h
          · rcases List.mem_append.1 h with h | h
            · exact absurd h (hpn.2.2.2.2.2.1 i a)
            · exact h
          · split at h <;> simp at h
        · exact absurd h hfn

theorem countP_zero_not_mem {α : Type} (q : α → Bool) (l : List α)
    (h : l.countP q = 0) (e : α) (he : q e = true) : e ∉ l := by
  intro hm
  have hpos := List.countP_pos_iff.2 ⟨e, hm, he⟩
  omega

theorem loop_pollPrep_zero (cfg : Config) (env : Env) (c : Nat)
    (rows : List (List Value)) (r p : Nat) :
    (importLoop cfg env c rows r p).1.countP isPollPrepEv = 0 := by
  rw [List.countP_eq_zero]
  intro e he
  have hh := loop_mem_loopEv cfg env c rows r p e he
  cases e <;> simp [isPollPrepEv, loopEv] at hh ⊢

theorem prep_poll (env : Env)
    (hD : env.tableColumns ≠ [] ∨ env.createOk = true) :
    Ev.pollPrep (env.pollFlag 0) ∈ (prepareTable env).1 ∧
    (prepareTable env).1.countP isPollPrepEv = 1 ∧
    (env.pollFlag 0 = true →
      (prepareTable env).2 = none ∧
      Ev.notifyError Msg.interruptedMsg ∈ (prepareTable env).1) ∧
    (env.pollFlag 0 = false → ∃ x, (prepareTable env).2 = some x) := by
  have hD' : env.tableColumns.length > 0 ∨ env.createOk = true := by
    rcases hD with h | h
    · exact Or.inl (List.length_pos.2 h)
    · exact Or.inr h
  cases hpoll : env.pollFlag 0 <;>
  · unfold prepareTable
    rcases hD' with h | h <;>
      split_ifs <;>
        simp_all [errorEvents, isPollPrepEv, List.countP_cons,
          List.countP_append]

theorem loop_poll_props (cfg : Config) (env : Env) (c : Nat) :
    ∀ (rows : List (List Value)) (r p : Nat) (n : Nat) (b : Bool),
      Ev.pollLoop n b ∈ (importLoop cfg env c rows r p).1 →
      n % 100 = 0 ∧
      (b = true →
        (importLoop cfg env c rows r p).2 = false ∧
        execCount (importLoop cfg env c rows r p).1 = n - r + 1 ∧ r ≤ n ∧
        Ev.notifyError Msg.interruptedMsg ∈ (importLoop cfg env c rows r p).1 ∧
        Ev.finished false ∈ (importLoop cfg env c rows r p).1) := by
  intro rows
  induction rows with
  | nil =>
    intro r p n b h
    simp [importLoop] at h
  | cons row rest ih =>
    intro r p n b h
    by_cases h0 : row.length = 0
    · simp [importLoop, h0] at h
    · have hwarn : Ev.pollLoop n b ∉ rowWarn env r := by
        intro hm
        rcases rowWarn_cases env r with hw | hw <;> simp [hw] at hm
      have hwx : List.countP isExecEv (rowWarn env r) = 0 := by
        rcases rowWarn_cases env r with hw | hw <;> simp [hw, isExecEv]
      by_cases habort : env.rowExecOk r = false ∧ cfg.ignoreErrors = false
      · simp only [importLoop, if_neg h0, if_pos habort, errorEvents,
          List.mem_cons, List.not_mem_nil] at h
        rcases h with h | h | h | h | h <;> simp at h
      · by_cases hr : r % 100 = 0
        · by_cases hpf : env.pollFlag p = true
          · have hstep : importLoop cfg env c (row :: rest) r p =
                (Ev.execRow r (reconcileRow c row) ::
                  (rowWarn env r ++ Ev.pollLoop r true ::
                    errorEvents Msg.interruptedMsg), false) := by
              simp [importLoop, h0, habort, hr, hpf]
            rw [hstep] at h ⊢
            simp only [List.mem_cons, List.mem_append, errorEvents,
              List.not_mem_nil] at h
            rcases h with h | h | h
            · simp at h
            · exact absurd h hwarn
            · rcases h with h | h | h | h
              · have hn : n = r ∧ b = true := by
                  injection h with h1 h2
                  exact ⟨h1, h2⟩
                rcases hn with ⟨rfl, rfl⟩
                refine ⟨hr, fun _ => ⟨rfl, ?_, le_refl n, by simp [errorEvents],
                  by simp [errorEvents]⟩⟩
                unfold execCount
                simp [List.countP_cons, List.countP_append, isExecEv, hwx,
                  errorEvents]
              all_goals simp at h
          · have hstep : importLoop cfg env c (row :: rest) r p =
                (Ev.execRow r (reconcileRow c row) ::
                  (rowWarn env r ++ Ev.pollLoop r false ::
                    (importLoop cfg env c rest (r + 1) (p + 1)).1),
                 (importLoop cfg env c rest (r + 1) (p + 1)).2) := by
              simp [importLoop, h0, habort, hr, hpf]
            rw [hstep] at h ⊢
            simp only [List.mem_cons, List.mem_append] at h
            rcases h with h | h | h
            · simp at h
            · exact absurd h hwarn
            · rcases h with h | h
              · have hn : n = r ∧ b = false := by
                  injection h with h1 h2
                  exact ⟨h1, h2⟩
                rcases hn with ⟨rfl, rfl⟩
                exact ⟨hr, fun hb => Bool.noConfusion hb⟩
              · rcases ih (r + 1) (p + 1) n b h with ⟨hmod, habort2⟩
                refine ⟨hmod, fun hb => ?_⟩
                rcases habort2 hb with ⟨hres, hcnt, hle, herr, hfin⟩
                refine ⟨by simpa using hres, ?_, by omega,
                  by simp [herr], by simp [hfin]⟩
                unfold execCount at hcnt ⊢
                simp [List.countP_cons, List.countP_append, isExecEv, hwx,
                  hcnt]
                omega
        · have hstep : importLoop cfg env c (row :: rest) r p =
              (Ev.execRow r (reconcileRow c row) ::
                (rowWarn env r ++ (importLoop cfg env c rest (r + 1) p).1),
               (importLoop cfg env c rest (r + 1) p).2) := by
            simp [importLoop, h0, habort, hr]
          rw [hstep] at h ⊢
          simp only [List.mem_cons, List.mem_append] at h
          rcases h with h | h | h
          · simp at h
          · exact absurd h hwarn
          · rcases ih (r + 1) p n b h with ⟨hmod, habort2⟩
            refine ⟨hmod, fun hb => ?_⟩
            rcases habort2 hb with ⟨hres, hcnt, hle, herr, hfin⟩
            refine ⟨by simpa using hres, ?_, by omega,
              by simp [herr], by simp [hfin]⟩
            unfold execCount at hcnt ⊢
            simp [List.countP_cons, List.countP_append, isExecEv, hwx, hcnt]
            omega

theorem loop_exec_bound (cfg : Config) (env : Env) (c : Nat) :
    ∀ (rows : List (List Value)) (r p : Nat),
      execCount (importLoop cfg env c rows r p).1 ≤
        100 * pollLoopCount (importLoop cfg env c rows r p).1 + pollGap r := by
  intro rows
  induction rows with
  | nil =>
    intro r p
    simp [importLoop, execCount, pollLoopCount]
  | cons row rest ih =>
    intro r p
    have hgap : 1 ≤ pollGap r := by
      unfold pollGap
      split_ifs with h <;> omega
    by_cases h0 : row.length = 0
    · simp [importLoop, h0, execCount, pollLoopCount]
    · have hwx : List.countP isExecEv (rowWarn env r) = 0 := by
        rcases rowWarn_cases env r with hw | hw <;> simp [hw, isExecEv]
      have hwp : List.countP isPollLoopEv (rowWarn env r) = 0 := by
        rcases rowWarn_cases env r with hw | hw <;> simp [hw, isPollLoopEv]
      by_cases habort : env.rowExecOk r = false ∧ cfg.ignoreErrors = false
      · unfold execCount pollLoopCount
        simp [importLoop, h0, habort, errorEvents, List.countP_cons,
          isExecEv, isPollLoopEv]
        omega
      · by_cases hr : r % 100 = 0
        · by_cases hpf : env.pollFlag p = true
          · unfold execCount pollLoopCount
            simp [importLoop, h0, habort, hr, hpf, errorEvents,
              List.countP_cons, List.countP_append, isExecEv, isPollLoopEv,
              hwx, hwp]
            omega
          · have ih' := ih (r + 1) (p + 1)
            unfold execCount pollLoopCount at ih' ⊢
            unfold pollGap at ih' ⊢
            simp [importLoop, h0, habort, hr, hpf, List.countP_cons,
              List.countP_append, isExecEv, isPollLoopEv, hwx, hwp]
            split_ifs at ih' ⊢ <;> omega
        · have ih' := ih (r + 1) p
          unfold execCount pollLoopCount at ih' ⊢
          unfold pollGap at ih' ⊢
          simp [importLoop, h0, habort, hr, List.countP_cons,
            List.countP_append, isExecEv, isPollLoopEv, hwx, hwp]
          split_ifs at ih' ⊢ <;> omega

theorem run_decomp (cfg : Config) (env : Env)
    (pevs : List Ev) (fc : List String) (created : Bool)
    (hb : env.beforeImportOk = true)
    (hc : env.pluginColumns.length ≠ 0)
    (hbg : cfg.skipTransaction = true ∨ env.beginOk = true)
    (hp : prepareTable env = (pevs, some (fc, created))) :
    ∃ tail, run cfg env =
      (if cfg.skipTransaction then [] else [Ev.beginTx]) ++
        (pevs ++ ((importLoop cfg env fc.length env.rows 0 1).1 ++ tail)) ∧
      execCount tail = 0 ∧ pollLoopCount tail = 0 ∧
      tail.countP isPollPrepEv = 0 := by
  rw [run_eq_stages cfg env pevs fc created hb hc hbg hp]
  by_cases hres : (importLoop cfg env fc.length env.rows 0 1).2 = false
  · refine ⟨if cfg.skipTransaction then [] else [Ev.rollbackTx], ?_, ?_, ?_, ?_⟩
    · rw [if_pos hres]
      simp [List.append_assoc]
    all_goals
      cases cfg.skipTransaction <;>
        simp [execCount, pollLoopCount, isExecEv, isPollLoopEv, isPollPrepEv]
  · by_cases hcm : cfg.skipTransaction = false ∧ env.commitOk = false
    · refine ⟨Ev.commitTx :: errorEvents (Msg.couldNotCommit env.dbErrText) ++
        [Ev.rollbackTx], ?_, ?_, ?_, ?_⟩
      · rw [if_neg hres, if_pos hcm]
        simp [List.append_assoc]
      all_goals
        simp [execCount, pollLoopCount, errorEvents, List.countP_cons,
          List.countP_append, isExecEv, isPollLoopEv, isPollPrepEv]
    · refine ⟨(if cfg.skipTransaction then [] else [Ev.commitTx]) ++
        finishTail created, ?_, ?_, ?_, ?_⟩
      · rw [if_neg hres, if_neg hcm]
        simp [List.append_assoc]
      all_goals
        have hfz := finishTail_zero created
        have hfp : (finishTail created).countP isPollPrepEv = 0 := by
          cases created <;> simp [finishTail, List.countP_cons, isPollPrepEv]
        have hfz1 := hfz.1
        have hfz2 := hfz.2.1
        unfold execCount at hfz1
        unfold pollLoopCount at hfz2
        cases cfg.skipTransaction <;>
          simp [execCount, pollLoopCount, List.countP_append, List.countP_cons,
            isExecEv, isPollLoopEv, isPollPrepEv, hfz1, hfz2, hfp]

theorem prep_existing (env : Env) (hD : env.tableColumns ≠ []) :
    (∀ cd, Ev.execCreate cd ∉ (prepareTable env).1) ∧
    tableCreatedFlag env = false := by
  have hD' : env.tableColumns.length > 0 := List.length_pos.2 hD
  unfold tableCreatedFlag prepareTable
  split_ifs <;> simp_all [errorEvents]

theorem created_spec_of_fail (cfg : Config) (env : Env)
    (hnc : Ev.createdTable ∉ run cfg env)
    (hnf : Ev.finished true ∉ run cfg env)
    (hnx : env.tableColumns ≠ [] → ∀ cd, Ev.execCreate cd ∉ run cfg env) :
    CreatedSignalSpec cfg env := by
  unfold CreatedSignalSpec
  exact ⟨⟨fun hmem => absurd hmem hnc, fun hand => absurd hand.1 hnf⟩,
    fun hmem => absurd hmem hnc,
    fun hD => ⟨(prep_existing env hD).2, hnc, hnx hD⟩⟩

theorem importLoop_env_rows (cfg : Config) (env : Env) (c : Nat)
    (X : List (List Value)) :
    ∀ (rows : List (List Value)) (r p : Nat),
      importLoop cfg { env with rows := X } c rows r p =
        importLoop cfg env c rows r p := by
  intro rows
  induction rows with
  | nil =>
    intro r p
    rfl
  | cons row rest ih =>
    intro r p
    simp only [importLoop]
    dsimp only
    rw [ih (r + 1) (p + 1), ih (r + 1) p]
    rfl

theorem loop_stops_at_empty (cfg : Config) (env : Env) (c : Nat) :
    ∀ (pre post : List (List Value)) (r p : Nat),
      importLoop cfg env c (pre ++ [] :: post) r p =
        importLoop cfg env c (pre ++ [[]]) r p := by
  intro pre
  induction pre with
  | nil =>
    intro post r p
    simp [importLoop]
  | cons row pre ih =>
    intro post r p
    simp only [List.cons_append, importLoop]
    simp only [List.append_eq]
    rw [ih post (r + 1) (p + 1), ih post (r + 1) p]

theorem loop_append_empty (cfg : Config) (env : Env) (c : Nat) :
    ∀ (pre : List (List Value)) (r p : Nat),
      (∀ row ∈ pre, row ≠ []) →
      importLoop cfg env c (pre ++ [[]]) r p =
        importLoop cfg env c pre r p := by
  intro pre
  induction pre with
  | nil =>
    intro r p _
    simp [importLoop]
  | cons row pre ih =>
    intro r p hne
    have hne' : ∀ rw ∈ pre, rw ≠ [] :=
      fun rw hrw => hne rw (List.mem_cons_of_mem row hrw)
    simp only [List.cons_append, importLoop]
    simp only [List.append_eq]
    rw [ih (r + 1) (p + 1) hne', ih (r + 1) p hne']

theorem run_rows_eq (cfg : Config) (env : Env) (X Y : List (List Value))
    (hXY : ∀ c r p, importLoop cfg env c X r p = importLoop cfg env c Y r p) :
    run cfg { env with rows := X } = run cfg { env with rows := Y } := by
  unfold run
  dsimp only
  by_cases h1 : env.beforeImportOk = false
  · simp [h1]
  · by_cases h2 : env.pluginColumns.length = 0
    · simp [h1, h2]
    · by_cases h3 : cfg.skipTransaction = false ∧ env.beginOk = false
      · simp [h1, h2, h3]
      · rw [if_neg h1, if_neg h1, if_neg h2, if_neg h2, if_neg h3, if_neg h3]
        congr 1
        unfold runBody
        have hpX : prepareTable { env with rows := X } = prepareTable env := rfl
        have hpY : prepareTable { env with rows := Y } = prepareTable env := rfl
        rw [hpX, hpY]
        rcases hp2 : prepareTable env with ⟨pevs, fcOpt⟩
        rcases fcOpt with _ | ⟨fc, created⟩
        · rfl
        · dsimp only
          rw [importLoop_env_rows cfg env fc.length X,
            importLoop_env_rows cfg env fc.length Y, hXY fc.length 0 1]

/-- C10: the in-loop cancellation check happens when the zero-based row
counter is a multiple of 100 and only after the current row's
statement has been executed; in particular a cancellation requested
after the reconciliation poll but before insertion begins (poll 0
clear, poll 1 set) still lets exactly one row be executed before the
run aborts as interrupted. -/
theorem poll_after_row_execution (cfg : Config) (env : Env)
    (row0 : List Value) (pevs : List Ev) (fc : List String) (created : Bool)
    (hb : env.beforeImportOk = true)
    (hcols : env.pluginColumns ≠ [])
    (hbg : cfg.skipTransaction = true ∨ env.beginOk = true)
    (hp : prepareTable env = (pevs, some (fc, created)))
    (hpoll1 : env.pollFlag 1 = true)
    (hrow0 : env.rows.get? 0 = some row0)
    (hrow0ne : row0 ≠ [])
    (hnoab : env.rowExecOk 0 = true ∨ cfg.ignoreErrors = true) :
    EarlyCancelSpec cfg env := by
  have hc0 : env.pluginColumns.length ≠ 0 := by
    simpa [List.length_eq_zero] using hcols
  rcases hrows : env.rows with _ | ⟨row0', rest⟩
  · rw [hrows] at hrow0
    simp at hrow0
  · have hr0 : row0' = row0 := by
      rw [hrows] at hrow0
      simpa using hrow0
    subst hr0
    have h0 : ¬ row0'.length = 0 := by
      simpa [List.length_eq_zero] using hrow0ne
    have habort : ¬ (env.rowExecOk 0 = false ∧ cfg.ignoreErrors = false) := by
      rcases hnoab with h | h
      · rintro ⟨h1, _⟩
        rw [h] at h1
        exact Bool.noConfusion h1
      · rintro ⟨_, h2⟩
        rw [h] at h2
        exact Bool.noConfusion h2
    have hstep : importLoop cfg env fc.length env.rows 0 1 =
        (Ev.execRow 0 (reconcileRow fc.length row0') ::
          (rowWarn env 0 ++ Ev.pollLoop 0 true ::
            errorEvents Msg.interruptedMsg), false) := by
      rw [hrows]
      simp [importLoop, h0, habort, hpoll1]
    have hres : (importLoop cfg env fc.length env.rows 0 1).2 = false := by
      rw [hstep]
    have hrun := run_eq_stages cfg env pevs fc created hb hc0 hbg hp
    rw [if_pos hres] at hrun
    rw [hstep] at hrun
    dsimp only at hrun
    have hpn := prep_not_mem env
    rw [hp] at hpn
    dsimp only at hpn
    have hpe := prep_exec_zero env
    rw [hp] at hpe
    dsimp only at hpe
    have hwx : List.countP isExecEv (rowWarn env 0) = 0 := by
      rcases rowWarn_cases env 0 with hw | hw <;> simp [hw, isExecEv]
    have hwp : ∀ n b, Ev.pollLoop n b ∉ rowWarn env 0 := by
      intro n b hm
      rcases rowWarn_cases env 0 with hw | hw <;> simp [hw] at hm
    refine ⟨?_, ?_, ?_, ?_, ?_⟩
    · intro n b hm
      rw [hrun] at hm
      have hnb : n = 0 ∧ b = true := by
        rcases List.mem_append.1 hm with h | h
        · revert h
          split <;> simp
        · rcases List.mem_append.1 h with h | h
          · rcases List.mem_append.1 h with h | h
            · exact absurd h (hpn.2.2.2.2.2.2 n b)
            · simp only [List.mem_cons, List.mem_append, errorEvents,
                List.not_mem_nil] at h
              rcases h with h | h | h
              · exact absurd h (by simp)
              · exact absurd h (hwp n b)
              · rcases h with h | h | h | h
                · have : n = 0 ∧ b = true := by
                    injection h with h1 h2
                    exact ⟨h1, h2⟩
                  exact this
                all_goals simp at h
          · revert h
            split <;> simp
      rcases hnb with ⟨rfl, rfl⟩
      refine ⟨by simp, reconcileRow fc.length row0', ?_⟩
      rw [hrun]
      simp
    · rw [hrun]
      unfold execCount at hpe ⊢
      cases cfg.skipTransaction <;>
        simp [List.countP_append, List.countP_cons, isExecEv, hpe.1, hwx,
          errorEvents]
    · rw [hrun]
      simp [errorEvents]
    · rw [hrun]
      simp [errorEvents]
    · intro hm
      rw [hrun] at hm
      have hwf : Ev.finished true ∉ rowWarn env 0 := by
        intro hm2
        rcases rowWarn_cases env 0 with hw | hw <;> simp [hw] at hm2
      exact absurd hm (by
        cases cfg.skipTransaction <;>
          simp [errorEvents, hpn.2.2.2.1, hwf])

/-- C10 witness: `envCancelEarly` sets the flag between poll 0 and
poll 1. -/
theorem poll_after_row_execution_witness :
    envCancelEarly.pollFlag 0 = false ∧ envCancelEarly.pollFlag 1 = true ∧
    EarlyCancelSpec cfgTx envCancelEarly :=
  ⟨rfl, rfl,
    poll_after_row_execution cfgTx envCancelEarly [Value.str "r1"]
      [Ev.notifyInfo Msg.infoMoreColumns, Ev.pollPrep false] ["x", "y"] false
      rfl (by decide) (Or.inr rfl) rfl rfl rfl (by decide) (Or.inl rfl)⟩

/-- C9: an empty row returned by the source is treated as end of
stream — the insertion loop stops there, rows after it never influence
the trace, the empty row produces neither an insert nor a warning nor
an error, and the run proceeds to a successful commit. -/
theorem empty_row_ends_stream (cfg : Config) (env : Env)
    (pre post : List (List Value))
    (pevs : List Ev) (fc : List String) (created : Bool)
    (hb : env.beforeImportOk = true)
    (hcols : env.pluginColumns ≠ [])
    (hbg : cfg.skipTransaction = true ∨ env.beginOk = true)
    (hpoll : ∀ q, env.pollFlag q = false)
    (hp : prepareTable env = (pevs, some (fc, created)))
    (henv : env.rows = pre ++ [] :: post)
    (hne : ∀ row ∈ pre, row ≠ [])
    (hok : ∀ j, j < pre.length → env.rowExecOk j = true)
    (hcm : cfg.skipTransaction = true ∨ env.commitOk = true) :
    EmptyRowSpec cfg env pre := by
  have hc0 : env.pluginColumns.length ≠ 0 := by
    simpa [List.length_eq_zero] using hcols
  have henv2 : env = { env with rows := pre ++ [] :: post } := by
    rw [← henv]
  have hlooprw : ∀ c r p, importLoop cfg env c env.rows r p =
      importLoop cfg env c pre r p := by
    intro c r p
    rw [henv, loop_stops_at_empty cfg env c pre post r p,
      loop_append_empty cfg env c pre r p hne]
  have hloop := loop_complete cfg env fc.length pre 0 1 hne hpoll
    (fun j hj => Or.inr (by simpa using hok j hj))
  simp only [Nat.zero_add] at hloop
  have hwnil : (List.range pre.length).filterMap (fun j => warnAt env j) = [] := by
    rw [List.filterMap_eq_nil_iff]
    intro j hj
    unfold warnAt
    rw [if_pos (hok j (List.mem_range.1 hj))]
  constructor
  · -- independence of everything after the empty row
    intro post2
    have h1 : run cfg { env with rows := pre ++ [] :: post2 } =
        run cfg { env with rows := pre ++ [] :: post } := by
      apply run_rows_eq
      intro c r p
      rw [loop_stops_at_empty cfg env c pre post2 r p,
        loop_stops_at_empty cfg env c pre post r p]
    rw [h1, ← henv2]
  · -- counts and outcome
    have hcond : ¬ (cfg.skipTransaction = false ∧ env.commitOk = false) := by
      rcases hcm with h | h <;> simp [h]
    have hres : (importLoop cfg env fc.length env.rows 0 1).2 = true := by
      rw [hlooprw]
      exact hloop.1
    have hrun := run_eq_stages cfg env pevs fc created hb hc0 hbg hp
    rw [hres] at hrun
    have h5 : ¬ (true = false) := by simp
    rw [if_neg h5, if_neg hcond] at hrun
    have hpe := prep_exec_zero env
    rw [hp] at hpe
    dsimp only at hpe
    have hpw := prep_warn_nil env
    rw [hp] at hpw
    dsimp only at hpw
    have hperr := prep_success_no_error env (fc, created) (by rw [hp])
    rw [hp] at hperr
    dsimp only at hperr
    have hfz := finishTail_zero created
    have hexecl : execCount (importLoop cfg env fc.length env.rows 0 1).1 =
        pre.length := by
      rw [hlooprw]
      exact hloop.2.1
    have hwarnl : warnList (importLoop cfg env fc.length env.rows 0 1).1 = [] := by
      rw [hlooprw]
      rw [hloop.2.2.1, hwnil]
    have herrl : ∀ m, Ev.notifyError m ∉
        (importLoop cfg env fc.length env.rows 0 1).1 := by
      intro m
      rw [hlooprw]
      exact hloop.2.2.2 m
    refine ⟨?_, ?_, ?_, ?_⟩
    · rw [hrun]
      unfold execCount at hpe hexecl ⊢
      have h2 := hfz.1
      unfold execCount at h2
      cases cfg.skipTransaction <;>
        simp [List.countP_append, List.countP_cons, isExecEv, hpe.1, hexecl,
          h2]
    · rw [hrun]
      cases cfg.skipTransaction <;> simp [finishTail_mem_finished]
    · rw [hrun, rowIgnored_eq_warn_length]
      unfold warnList at hpw hwarnl ⊢
      have h4 := hfz.2.2.2
      unfold warnList at h4
      cases cfg.skipTransaction <;>
        simp [List.filterMap_append, List.filterMap_cons, warnIgnoredData,
          hpw, hwarnl, h4]
    · intro m hm
      rw [hrun] at hm
      have hft : Ev.notifyError m ∉ finishTail created := by
        cases created <;> simp [finishTail]
      exact absurd hm (by
        cases cfg.skipTransaction <;>
          simp [hperr m, herrl m, hft])

/-- C9 witness: `envEmptyRow` has one non-empty row, then an empty row,
then another non-empty row that must never be read. -/
theorem empty_row_ends_stream_witness :
    envEmptyRow.rows = [[Value.str "p1"]] ++ [] :: [[Value.str "q1"]] ∧
    EmptyRowSpec cfgTx envEmptyRow [[Value.str "p1"]] :=
  ⟨rfl,
    empty_row_ends_stream cfgTx envEmptyRow
      [[Value.str "p1"]] [[Value.str "q1"]]
      [Ev.notifyInfo Msg.infoMoreColumns, Ev.pollPrep false] ["x", "y"] false
      rfl (by decide) (Or.inr rfl) (fun _ => rfl) rfl rfl (by decide)
      (fun j hj => by
        have hj0 : j = 0 := by
          simpa using Nat.lt_one_iff.1 (by simpa using hj)
        subst hj0
        rfl)
      (Or.inr rfl)⟩

/-- C8: the table-created notification is emitted iff the run reaches
terminal success with `tableCreated` set, and then right before the
teardown hook and the success signal; a run against an existing table
neither re-creates the table nor emits the notification. -/
theorem created_table_signal (cfg : Config) (env : Env) :
    CreatedSignalSpec cfg env := by
  by_cases hb : env.beforeImportOk = false
  · have ht : run cfg env = [Ev.finished false] := by
      unfold run
      rw [if_pos hb]
    exact created_spec_of_fail cfg env (by rw [ht]; simp) (by rw [ht]; simp)
      (fun _ cd => by rw [ht]; simp)
  · have hb' : env.beforeImportOk = true := by
      revert hb
      cases env.beforeImportOk <;> simp
    by_cases hc : env.pluginColumns.length = 0
    · have ht : run cfg env = errorEvents Msg.noColumns := by
        unfold run
        simp [hb', hc]
      exact created_spec_of_fail cfg env (by rw [ht]; simp [errorEvents])
        (by rw [ht]; simp [errorEvents])
        (fun _ cd => by rw [ht]; simp [errorEvents])
    · by_cases hsb : cfg.skipTransaction = false ∧ env.beginOk = false
      · have ht : run cfg env =
            Ev.beginTx :: errorEvents (Msg.couldNotBegin env.dbErrText) := by
          unfold run
          simp [hb', hc, hsb.1, hsb.2]
        exact created_spec_of_fail cfg env (by rw [ht]; simp [errorEvents])
          (by rw [ht]; simp [errorEvents])
          (fun _ cd => by rw [ht]; simp [errorEvents])
      · have hbg : cfg.skipTransaction = true ∨ env.beginOk = true := by
          by_cases h1 : cfg.skipTransaction = true
          · exact Or.inl h1
          · right
            by_cases h2 : env.beginOk = true
            · exact h2
            · exfalso
              apply hsb
              constructor
              · revert h1
                cases cfg.skipTransaction <;> simp
              · revert h2
                cases env.beginOk <;> simp
        rcases hp : prepareTable env with ⟨pevs, fcOpt⟩
        have hpn := prep_not_mem env
        rw [hp] at hpn
        dsimp only at hpn
        have hpx : env.tableColumns ≠ [] → ∀ cd, Ev.execCreate cd ∉ pevs := by
          intro hD cd
          have h0 := (prep_existing env hD).1 cd
          rw [hp] at h0
          exact h0
        rcases fcOpt with _ | ⟨fc, created⟩
        · have ht : run cfg env =
              (if cfg.skipTransaction then [] else [Ev.beginTx]) ++
              (pevs ++ (if cfg.skipTransaction then [] else [Ev.rollbackTx])) := by
            rw [run_eq_body cfg env hb' hc hbg]
            unfold runBody
            rw [hp]
          refine created_spec_of_fail cfg env ?_ ?_ ?_
          · rw [ht]
            cases cfg.skipTransaction <;> simp [hpn.2.2.2.2.1]
          · rw [ht]
            cases cfg.skipTransaction <;> simp [hpn.2.2.2.1]
          · intro hD cd
            rw [ht]
            cases cfg.skipTransaction <;> simp [hpx hD cd]
        · have hflag : tableCreatedFlag env = created := by
            unfold tableCreatedFlag
            rw [hp]
          have hln := loop_not_mem cfg env fc.length env.rows 0 1
          have hrun := run_eq_stages cfg env pevs fc created hb' hc hbg hp
          by_cases hres : (importLoop cfg env fc.length env.rows 0 1).2 = false
          · rw [if_pos hres] at hrun
            refine created_spec_of_fail cfg env ?_ ?_ ?_
            · rw [hrun]
              cases cfg.skipTransaction <;>
                simp [hpn.2.2.2.2.1, hln.2.2.2.2.1]
            · rw [hrun]
              cases cfg.skipTransaction <;>
                simp [hpn.2.2.2.1, hln.2.2.2.1]
            · intro hD cd
              rw [hrun]
              cases cfg.skipTransaction <;>
                simp [hpx hD cd, hln.2.2.2.2.2.2 cd]
          · by_cases hcm : cfg.skipTransaction = false ∧ env.commitOk = false
            · rw [if_neg hres, if_pos hcm] at hrun
              refine created_spec_of_fail cfg env ?_ ?_ ?_
              · rw [hrun]
                cases cfg.skipTransaction <;>
                  simp [errorEvents, hpn.2.2.2.2.1, hln.2.2.2.2.1]
              · rw [hrun]
                cases cfg.skipTransaction <;>
                  simp [errorEvents, hpn.2.2.2.1, hln.2.2.2.1]
              · intro hD cd
                rw [hrun]
                cases cfg.skipTransaction <;>
                  simp [errorEvents, hpx hD cd, hln.2.2.2.2.2.2 cd]
            · rw [if_neg hres, if_neg hcm] at hrun
              cases created
              · -- success without table creation
                have hnc : Ev.createdTable ∉ run cfg env := by
                  rw [hrun]
                  cases cfg.skipTransaction <;>
                    simp [finishTail, hpn.2.2.2.2.1, hln.2.2.2.2.1]
                refine ⟨⟨fun hmem => absurd hmem hnc, fun hand => ?_⟩,
                  fun hmem => absurd hmem hnc,
                  fun hD => ⟨(prep_existing env hD).2, hnc, ?_⟩⟩
                · rw [hflag] at hand
                  exact absurd hand.2 (by simp)
                · intro cd
                  rw [hrun]
                  cases cfg.skipTransaction <;>
                    simp [finishTail, hpx hD cd, hln.2.2.2.2.2.2 cd]
              · -- success with table creation
                have hcmem : Ev.createdTable ∈ run cfg env := by
                  rw [hrun]
                  simp [finishTail]
                have hfmem : Ev.finished true ∈ run cfg env := by
                  rw [hrun]
                  simp [finishTail]
                refine ⟨⟨fun _ => ⟨hfmem, hflag⟩, fun _ => hcmem⟩,
                  fun _ => ?_, fun hD => ?_⟩
                · refine ⟨(if cfg.skipTransaction then [] else [Ev.beginTx]) ++
                    (pevs ++ (importLoop cfg env fc.length env.rows 0 1).1 ++
                      (if cfg.skipTransaction then [] else [Ev.commitTx])), ?_⟩
                  rw [hrun]
                  simp [finishTail, List.append_assoc]
                · have h1 := (prep_existing env hD).2
                  rw [hflag] at h1
                  exact absurd h1 (by simp)

/-- C8 witness: a run that creates the destination table
(`envFreshTable`) emits `createdTable` right before success. -/
theorem created_table_signal_witness :
    CreatedSignalSpec cfgTx envFreshTable :=
  created_table_signal cfgTx envFreshTable

/-- C7: cancellation is polled once at the reconciliation point and
then only at row counters that are multiples of 100; observing the
flag set at the reconciliation poll aborts the run as interrupted with
no row written, observing it at the in-loop poll for row counter n
aborts it with exactly n+1 rows executed, and the number of executed
rows is bounded by 100 per in-loop poll plus one. -/
theorem cancellation_poll_points (cfg : Config) (env : Env)
    (hb : env.beforeImportOk = true)
    (hcols : env.pluginColumns ≠ [])
    (hbg : cfg.skipTransaction = true ∨ env.beginOk = true)
    (hD : env.tableColumns ≠ [] ∨ env.createOk = true) :
    PollPointsSpec cfg env := by
  have hc0 : env.pluginColumns.length ≠ 0 := by
    simpa [List.length_eq_zero] using hcols
  have hpp := prep_poll env hD
  unfold PollPointsSpec
  cases hpoll0 : env.pollFlag 0
  · -- flag clear at reconciliation: prepareTable succeeds
    rcases hpp.2.2.2 hpoll0 with ⟨⟨fc, created⟩, hsome⟩
    rcases hpx : prepareTable env with ⟨pevs, fcOpt⟩
    rw [hpx] at hsome
    dsimp only at hsome
    subst hsome
    rcases run_decomp cfg env pevs fc created hb hc0 hbg hpx with
      ⟨tail, hrun, htx, htp, htpp⟩
    have hpn := prep_not_mem env
    rw [hpx] at hpn
    dsimp only at hpn
    have hpe := prep_exec_zero env
    rw [hpx] at hpe
    dsimp only at hpe
    have hpm := hpp.1
    rw [hpx, hpoll0] at hpm
    dsimp only at hpm
    have hpc := hpp.2.1
    rw [hpx] at hpc
    dsimp only at hpc
    have hlpp := loop_pollPrep_zero cfg env fc.length env.rows 0 1
    have hbex : execCount (if cfg.skipTransaction then [] else [Ev.beginTx]) = 0 ∧
        pollLoopCount (if cfg.skipTransaction then [] else [Ev.beginTx]) = 0 ∧
        (if cfg.skipTransaction then [] else [Ev.beginTx]).countP isPollPrepEv = 0 ∧
        (∀ n b, Ev.pollLoop n b ∉ (if cfg.skipTransaction then [] else [Ev.beginTx])) := by
      cases cfg.skipTransaction <;>
        simp [execCount, pollLoopCount, isExecEv, isPollLoopEv, isPollPrepEv]
    have hexec : execCount (run cfg env) =
        execCount (importLoop cfg env fc.length env.rows 0 1).1 := by
      rw [hrun]
      unfold execCount at hbex hpe htx ⊢
      simp [List.countP_append, hbex.1, hpe.1, htx]
    have hplc : pollLoopCount (run cfg env) =
        pollLoopCount (importLoop cfg env fc.length env.rows 0 1).1 := by
      rw [hrun]
      unfold pollLoopCount at hbex htp ⊢
      have hppl : List.countP isPollLoopEv pevs = 0 := by
        rw [List.countP_eq_zero]
        intro e he
        have hh := prep_mem_prepEv env e (by rw [hpx]; exact he)
        cases e <;> simp [isPollLoopEv, prepEv] at hh ⊢
      simp [List.countP_append, hbex.2.1, hppl, htp]
    have hmemloop : ∀ n b, Ev.pollLoop n b ∈ run cfg env →
        Ev.pollLoop n b ∈ (importLoop cfg env fc.length env.rows 0 1).1 := by
      intro n b hm
      rw [hrun] at hm
      rcases List.mem_append.1 hm with h | h
      · exact absurd h (hbex.2.2.2 n b)
      · rcases List.mem_append.1 h with h | h
        · exact absurd h (hpn.2.2.2.2.2.2 n b)
        · rcases List.mem_append.1 h with h | h
          · exact h
          · exact absurd h
              (countP_zero_not_mem isPollLoopEv tail htp _ (by simp [isPollLoopEv]))
    refine ⟨?_, ?_, ?_, ?_, ?_, ?_⟩
    · rw [hrun]
      simp [hpm]
    · rw [hrun]
      simp [List.countP_append, hbex.2.2.1, hpc, hlpp, htpp]
    · intro hcontra
      exact absurd hcontra (by simp)
    · intro n b hm
      exact (loop_poll_props cfg env fc.length env.rows 0 1 n b
        (hmemloop n b hm)).1
    · intro n hm
      have hl := hmemloop n true hm
      rcases (loop_poll_props cfg env fc.length env.rows 0 1 n true hl).2 rfl
        with ⟨hres, hcnt, hle, herr, hfin⟩
      refine ⟨?_, ?_, ?_⟩
      · rw [hrun]
        simp [herr]
      · rw [hrun]
        simp [hfin]
      · rw [hexec, hcnt]
        omega
    · rw [hexec, hplc]
      have hbound := loop_exec_bound cfg env fc.length env.rows 0 1
      have hg : pollGap 0 = 1 := by simp [pollGap]
      rw [hg] at hbound
      exact hbound
  · -- flag set at reconciliation: prepareTable fails, no row written
    rcases hpx : prepareTable env with ⟨pevs, fcOpt⟩
    have hnone := hpp.2.2.1 hpoll0
    rw [hpx] at hnone
    dsimp only at hnone
    obtain ⟨hfcn, herr⟩ := hnone
    subst hfcn
    have hrun := run_eq_body cfg env hb hc0 hbg
    have hbody : runBody cfg env =
        pevs ++ (if cfg.skipTransaction then [] else [Ev.rollbackTx]) := by
      unfold runBody
      rw [hpx]
    rw [hbody] at hrun
    have hpn := prep_not_mem env
    rw [hpx] at hpn
    dsimp only at hpn
    have hpe := prep_exec_zero env
    rw [hpx] at hpe
    dsimp only at hpe
    have hpm := hpp.1
    rw [hpx, hpoll0] at hpm
    dsimp only at hpm
    have hpc := hpp.2.1
    rw [hpx] at hpc
    dsimp only at hpc
    have hfin : Ev.finished false ∈ pevs := by
      have h0 := prep_fail_finished env (by rw [hpx])
      rwa [hpx] at h0
    have hexec0 : execCount (run cfg env) = 0 := by
      rw [hrun]
      unfold execCount at hpe ⊢
      cases cfg.skipTransaction <;>
        simp [List.countP_append, List.countP_cons, isExecEv, hpe.1]
    refine ⟨?_, ?_, fun _ => ⟨?_, ?_, hexec0⟩, ?_, ?_, ?_⟩
    · rw [hrun]
      cases cfg.skipTransaction <;> simp [hpm]
    · rw [hrun]
      cases cfg.skipTransaction <;>
        simp [List.countP_append, List.countP_cons, isPollPrepEv, hpc]
    · rw [hrun]
      cases cfg.skipTransaction <;> simp [herr]
    · rw [hrun]
      cases cfg.skipTransaction <;> simp [hfin]
    · intro n b hm
      rw [hrun] at hm
      exact absurd hm (by
        cases cfg.skipTransaction <;> simp [hpn.2.2.2.2.2.2 n b])
    · intro n hm
      rw [hrun] at hm
      exact absurd hm (by
        cases cfg.skipTransaction <;> simp [hpn.2.2.2.2.2.2 n true])
    · rw [hexec0]
      omega

/-- C7 witness: the happy-path transactional run on `baseEnv` (flag
never set, polls at the reconciliation point and at row counter 0). -/
theorem cancellation_poll_points_witness :
    baseEnv.beforeImportOk = true ∧ baseEnv.tableColumns ≠ [] ∧
    PollPointsSpec cfgTx baseEnv :=
  ⟨rfl, by decide,
    cancellation_poll_points cfgTx baseEnv rfl (by decide) (Or.inr rfl)
      (Or.inl (by decide))⟩

/-- C6: row shape reconciliation.  Every executed row INSERT binds
exactly the reconciled number of values: rows shorter than the
reconciled column count are padded at the trailing positions with null
string values, rows longer than it are truncated, so the bound
argument list's length never differs from the reconciled column
count. -/
theorem row_shape_reconciliation (cfg : Config) (env : Env)
    (pevs : List Ev) (fc : List String) (created : Bool)
    (hb : env.beforeImportOk = true)
    (hcols : env.pluginColumns ≠ [])
    (hbg : cfg.skipTransaction = true ∨ env.beginOk = true)
    (hp : prepareTable env = (pevs, some (fc, created))) :
    RowShapeSpec cfg env fc := by
  intro i a hmem
  have hc0 : env.pluginColumns.length ≠ 0 := by
    simpa [List.length_eq_zero] using hcols
  have hloop := run_exec_mem cfg env pevs fc created hb hc0 hbg hp i a hmem
  rcases loop_exec_args cfg env fc.length env.rows 0 1 i a hloop with
    ⟨_, row, hget, ha⟩
  simp only [Nat.sub_zero] at hget
  subst ha
  exact ⟨reconcileRow_length fc.length row, row, hget, rfl,
    fun h => reconcileRow_pad fc.length row h,
    fun h => reconcileRow_trunc fc.length row h⟩

/-- C6 witness: `envShapes` has a one-value row (padded to two values)
and a three-value row (truncated to two values). -/
theorem row_shape_reconciliation_witness :
    envShapes.beforeImportOk = true ∧
    prepareTable envShapes =
      ([Ev.notifyInfo Msg.infoMoreColumns, Ev.pollPrep false],
        some (["x", "y"], false)) ∧
    RowShapeSpec cfgTx envShapes ["x", "y"] :=
  ⟨rfl, rfl,
    row_shape_reconciliation cfgTx envShapes
      [Ev.notifyInfo Msg.infoMoreColumns, Ev.pollPrep false] ["x", "y"] false
      rfl (by decide) (Or.inr rfl) rfl⟩

/-- C5: with `ignoreErrors = true`, for a source of N non-empty rows the
run succeeds, all N rows are executed, the failing rows each produce
exactly one warning naming the failing row's 1-based index and the
underlying error text (in source order), a failed row contributes no
other event, and no error notification is emitted. -/
theorem ignore_errors_warns_and_continues (cfg : Config) (env : Env)
    (pevs : List Ev) (fc : List String) (created : Bool)
    (hig : cfg.ignoreErrors = true)
    (hb : env.beforeImportOk = true)
    (hcols : env.pluginColumns ≠ [])
    (hbg : cfg.skipTransaction = true ∨ env.beginOk = true)
    (hpoll : ∀ q, env.pollFlag q = false)
    (hp : prepareTable env = (pevs, some (fc, created)))
    (hne : ∀ row ∈ env.rows, row ≠ [])
    (hcm : cfg.skipTransaction = true ∨ env.commitOk = true) :
    IgnoreErrorsSpec cfg env := by
  have hc0 : env.pluginColumns.length ≠ 0 := by
    simpa [List.length_eq_zero] using hcols
  have hloop := loop_complete cfg env fc.length env.rows 0 1 hne hpoll
    (fun j _ => Or.inl hig)
  simp only [Nat.zero_add] at hloop
  have hcond : ¬ (cfg.skipTransaction = false ∧ env.commitOk = false) := by
    rcases hcm with h | h <;> simp [h]
  have hrun := run_eq_stages cfg env pevs fc created hb hc0 hbg hp
  rw [hloop.1] at hrun
  have h5 : ¬ (true = false) := by simp
  rw [if_neg h5, if_neg hcond] at hrun
  have hpe := prep_exec_zero env
  rw [hp] at hpe
  dsimp only at hpe
  have hpw := prep_warn_nil env
  rw [hp] at hpw
  dsimp only at hpw
  have hperr := prep_success_no_error env (fc, created) (by rw [hp])
  rw [hp] at hperr
  dsimp only at hperr
  have hfz := finishTail_zero created
  unfold IgnoreErrorsSpec
  rw [hrun]
  cases hs : cfg.skipTransaction
  · simp only [Bool.false_eq_true, if_false]
    refine ⟨by simp [finishTail_mem_finished], ?_, ?_, ?_, ?_⟩
    · have h1 := hloop.2.1
      unfold execCount at h1 hpe ⊢
      have h2 := hfz.1
      unfold execCount at h2
      simp [List.countP_append, List.countP_cons, isExecEv, hpe.1, h1, h2]
    · have h3 := hloop.2.2.1
      unfold warnList at h3 hpw ⊢
      have h4 := hfz.2.2.2
      unfold warnList at h4
      simp [List.filterMap_append, List.filterMap_cons, warnIgnoredData,
        hpw, h3, h4]
    · rw [rowIgnored_eq_warn_length]
      have h3 := hloop.2.2.1
      unfold warnList at h3 hpw ⊢
      have h4 := hfz.2.2.2
      unfold warnList at h4
      simp [List.filterMap_append, List.filterMap_cons, warnIgnoredData,
        hpw, h3, h4]
    · intro m hm
      have hft : Ev.notifyError m ∉ finishTail created := by
        cases created <;> simp [finishTail]
      exact absurd hm (by simp [hperr m, hloop.2.2.2 m, hft])
  · simp only [if_true]
    refine ⟨by simp [finishTail_mem_finished], ?_, ?_, ?_, ?_⟩
    · have h1 := hloop.2.1
      unfold execCount at h1 hpe ⊢
      have h2 := hfz.1
      unfold execCount at h2
      simp [List.countP_append, List.countP_cons, isExecEv, hpe.1, h1, h2]
    · have h3 := hloop.2.2.1
      unfold warnList at h3 hpw ⊢
      have h4 := hfz.2.2.2
      unfold warnList at h4
      simp [List.filterMap_append, List.filterMap_cons, warnIgnoredData,
        hpw, h3, h4]
    · rw [rowIgnored_eq_warn_length]
      have h3 := hloop.2.2.1
      unfold warnList at h3 hpw ⊢
      have h4 := hfz.2.2.2
      unfold warnList at h4
      simp [List.filterMap_append, List.filterMap_cons, warnIgnoredData,
        hpw, h3, h4]
    · intro m hm
      have hft : Ev.notifyError m ∉ finishTail created := by
        cases created <;> simp [finishTail]
      exact absurd hm (by simp [hperr m, hloop.2.2.2 m, hft])

/-- C5 witness: three rows with exactly the second failing, in a
transactional ignoring run. -/
theorem ignore_errors_warns_and_continues_witness :
    cfgTxIgnore.ignoreErrors = true ∧
    (∀ row ∈ envOneBadRow.rows, row ≠ []) ∧
    IgnoreErrorsSpec cfgTxIgnore envOneBadRow :=
  ⟨rfl, by decide,
    ignore_errors_warns_and_continues cfgTxIgnore envOneBadRow
      [Ev.notifyInfo Msg.infoMoreColumns, Ev.pollPrep false] ["x", "y"] false
      rfl rfl (by decide) (Or.inr rfl) (fun _ => rfl) rfl (by decide)
      (Or.inr rfl)⟩

/-- C4: with `ignoreErrors = false`, the first row whose statement
execution fails (the k-th attempted row, all earlier rows non-empty and
successful) aborts the run immediately: the failure outcome carries the
underlying error text, no further rows are executed (exactly k+1
executions), no success signal is emitted, and a transactional run
invokes rollback. -/
theorem first_failing_row_aborts (cfg : Config) (env : Env) (k : Nat)
    (pevs : List Ev) (fc : List String) (created : Bool)
    (hig : cfg.ignoreErrors = false)
    (hb : env.beforeImportOk = true)
    (hcols : env.pluginColumns ≠ [])
    (hbg : cfg.skipTransaction = true ∨ env.beginOk = true)
    (hpoll : ∀ q, env.pollFlag q = false)
    (hp : prepareTable env = (pevs, some (fc, created)))
    (hrows : ∀ j, j ≤ k → ∃ row, env.rows.get? j = some row ∧ row ≠ [])
    (hok : ∀ j, j < k → env.rowExecOk j = true)
    (hfail : env.rowExecOk k = false) :
    AbortOnRowFailSpec cfg env k := by
  have hc0 : env.pluginColumns.length ≠ 0 := by
    simpa [List.length_eq_zero] using hcols
  have hloop := loop_first_fail cfg env fc.length k env.rows 0 1 hig hpoll
    hrows (by simpa using hok) (by simpa using hfail)
  simp only [Nat.zero_add] at hloop
  have hrun := run_eq_stages cfg env pevs fc created hb hc0 hbg hp
  rw [hloop.1] at hrun
  rw [if_pos rfl] at hrun
  have hpn := prep_not_mem env
  rw [hp] at hpn
  dsimp only at hpn
  have hpe := prep_exec_zero env
  rw [hp] at hpe
  dsimp only at hpe
  have hln := loop_not_mem cfg env fc.length env.rows 0 1
  unfold AbortOnRowFailSpec
  rw [hrun]
  cases hs : cfg.skipTransaction
  · simp only [Bool.false_eq_true, if_false]
    refine ⟨by simp [hloop.2.2.1], by simp [hloop.2.2.2], ?_, ?_, fun _ => by simp⟩
    · intro hmem
      exact absurd hmem (by simp [hpn.2.2.2.1, hln.2.2.2.1])
    · have h1 := hloop.2.1
      unfold execCount at h1 ⊢
      unfold execCount at hpe
      simp [List.countP_append, List.countP_cons, isExecEv, hpe.1, h1]
  · simp only [if_true]
    refine ⟨by simp [hloop.2.2.1], by simp [hloop.2.2.2], ?_, ?_,
      fun h => absurd h (by simp)⟩
    · intro hmem
      exact absurd hmem (by simp [hpn.2.2.2.1, hln.2.2.2.1])
    · have h1 := hloop.2.1
      unfold execCount at h1 ⊢
      unfold execCount at hpe
      simp [List.countP_append, List.countP_cons, isExecEv, hpe.1, h1]

/-- C4 witness: `envRowFail` fails on its very first row (k = 0) in a
transactional, non-ignoring run. -/
theorem first_failing_row_aborts_witness :
    cfgTx.ignoreErrors = false ∧ envRowFail.rowExecOk 0 = false ∧
    AbortOnRowFailSpec cfgTx envRowFail 0 :=
  ⟨rfl, rfl,
    first_failing_row_aborts cfgTx envRowFail 0
      [Ev.notifyInfo Msg.infoMoreColumns, Ev.pollPrep false] ["x", "y"] false
      rfl rfl (by decide) (Or.inr rfl) (fun _ => rfl) (by decide)
      (fun j hj => by
        have hj0 : j = 0 := Nat.le_zero.1 hj
        subst hj0
        exact ⟨[Value.str "r1"], rfl, by decide⟩)
      (fun j hj => absurd hj (Nat.not_lt_zero j)) rfl⟩

/-- C3 (amended): every run emits the terminal `finished` signal exactly
once; the plugin's `afterImport` teardown hook is invoked exactly once
on every outcome path on which setup (`beforeImport`) succeeded, and is
not invoked at all when setup returns false. -/
theorem teardown_and_finished_signals (cfg : Config) (env : Env) :
    finishedCount (run cfg env) = 1 ∧
    afterImportCount (run cfg env) =
      (if env.beforeImportOk = true then 1 else 0) := by
  unfold run
  cases hb : env.beforeImportOk
  · simp [finishedCount, afterImportCount, List.countP_cons, List.countP_nil,
      isFinishedEv, isAfterImportEv]
  · by_cases hc : env.pluginColumns.length = 0
    · simp [hc, errorEvents, finishedCount, afterImportCount,
        List.countP_cons, isFinishedEv, isAfterImportEv]
    · have hrb := runBody_counts cfg env
      unfold finishedCount afterImportCount at hrb ⊢
      cases hs : cfg.skipTransaction <;> cases hbO : env.beginOk <;>
        simp [hs, hbO, hc, hrb.1, hrb.2, errorEvents, List.countP_append,
          List.countP_cons, isFinishedEv, isAfterImportEv]

end ImportWorker
